import Mathlib

/-!
# CyrusAuthLDAP: the SASL authentication module `CSASLAuthMod`

A shallow embedding of `src/cyrusauthldap.cpp`.

* Objects reached through `CUser*` live in an explicit heap; a pointer is an
  index into it and `NULL` is `none`.
* Calls that leave the module (the credential cache, the SASL library, the
  account registry, `AcceptLogin`) are appended to a trace, so that "was not
  called" and "was called once" are statements about the trace.
* What the SASL library and the host answer during one attempt is an `Env`;
  host string functions whose code is not part of this file are a `Lib`.
-/

namespace CyrusAuthLDAP

abbrev CString := String

/-- The result code `SASL_OK` of `sasl/sasl.h`. -/
def SASL_OK : Int := 0

/-- The two values of `CModule::EModRet` that `OnLoginAttempt` returns. -/
inductive EModRet where
  | CONTINUE
  | HALT
deriving DecidableEq, Repr

/-- The password hash kinds of `CUser`. -/
inductive eHashType where
  | HASH_NONE
  | HASH_MD5
  | HASH_SHA256
deriving DecidableEq, Repr, Inhabited

/-- A network of a user; `GetUser()` returns `m_pUser`. -/
structure CIRCNetwork where
  m_sName : CString
  m_pUser : Nat
deriving DecidableEq, Repr, Inhabited

/-- The fields of `CUser` that the module reads or writes. -/
structure CUser where
  m_sUserName : CString
  m_sNick : CString
  m_sAltNick : CString
  m_sIdent : CString
  m_sRealName : CString
  m_sPass : CString
  m_eHashType : eHashType
  m_sPassSalt : CString
  m_vIRCNetworks : List CIRCNetwork
deriving DecidableEq, Repr, Inhabited

/-- Calls that leave the module, in the order they are made. -/
inductive Event where
  | HasItem (sCacheKey : CString)
  | AddItem (sCacheKey : CString)
  | sasl_server_new
  | sasl_checkpass (sUsername sPassword : CString)
  | sasl_dispose
  | new_CUser (p : Nat)
  | Clone (p pBaseUser : Nat)
  | SetPass (p : Nat)
  | AddUser (p : Nat) (user : CUser)
  | delete (p : Nat)
  | AcceptLogin (p : Nat)
  | PrintError (msg : CString)
  | sasl_server_init
deriving DecidableEq, Repr

/-- Modelled from the spec: the class template `TCacheMap` of the host is not
in `src/`. An entry is a fingerprint with its insertion time; it carries no
other payload. -/
structure TCacheMap where
  m_uTTL : Nat
  m_mItems : List (CString × Nat)
deriving DecidableEq, Repr

/-- Modelled from the spec: `TCacheMap::SetTTL`, not in `src/`. -/
def TCacheMap.SetTTL (c : TCacheMap) (uTTL : Nat) : TCacheMap :=
  { c with m_uTTL := uTTL }

/-- Modelled from the spec: `TCacheMap::HasItem`, not in `src/`. An entry is
valid only while `now - insertion_time < TTL`; an older entry is treated as
absent. -/
def TCacheMap.HasItem (c : TCacheMap) (now : Nat) (Item : CString) : Bool :=
  c.m_mItems.any (fun e => e.1 == Item && decide (now - e.2 < c.m_uTTL))

/-- Modelled from the spec: `TCacheMap::AddItem`, not in `src/`. Inserting a
fingerprint that is already stored refreshes its insertion time; it cannot
fail. -/
def TCacheMap.AddItem (c : TCacheMap) (now : Nat) (Item : CString) : TCacheMap :=
  { c with m_mItems := (Item, now) :: c.m_mItems.filter (fun e => !(e.1 == Item)) }

/-- Host string functions whose code is not in `src/`, taken as parameters:
`CString::MD5`, `CString::ToBool`, `CString::Equals`, and the field values the
`CUser` constructor gives a fresh object. -/
structure Lib where
  MD5 : CString → CString
  ToBool : CString → Bool
  Equals : CString → CString → Bool
  blank : CUser

/-- What the world outside the module answers during one login attempt: the
clock, the result codes of `sasl_server_new` and `sasl_checkpass`, the outcome
of `CUser::Clone` (`none` when it reports failure, otherwise the cloned
contents of the target) and whether `CZNC::AddUser` accepts the object. -/
structure Env where
  now : Nat
  sasl_server_new : Int
  sasl_checkpass : CString → CString → Int
  Clone : CUser → CUser → Option CUser
  AddUser : CUser → Bool

/-- The state the module works on: the heap of `CUser` objects, the registry
`CZNC::m_msUsers`, the members `m_Cache` and `m_sMethod`, the module's
name/value registry behind `GetNV`, and the trace of calls made so far. -/
structure State where
  heap : List (Option CUser)
  m_msUsers : List (CString × Nat)
  m_Cache : TCacheMap
  m_sMethod : CString
  nv : List (CString × CString)
  trace : List Event

/-- Append one call to the trace. -/
def State.emit (s : State) (e : Event) : State :=
  { s with trace := s.trace ++ [e] }

/-- The object behind pointer `p`, if it is allocated. -/
def derefHeap (h : List (Option CUser)) (p : Nat) : Option CUser :=
  match h[p]? with
  | some (some u) => some u
  | _ => none

/-- Apply a member function that rewrites fields to the object behind `p`. -/
def updateHeap (h : List (Option CUser)) (p : Nat) (f : CUser → CUser) : List (Option CUser) :=
  match derefHeap h p with
  | some u => h.set p (some (f u))
  | none => h

/-- The object behind pointer `p`, if it is allocated. -/
def State.deref (s : State) (p : Nat) : Option CUser :=
  derefHeap s.heap p

/-- The object behind pointer `p`; the default object if `p` dangles. -/
def State.obj (s : State) (p : Nat) : CUser :=
  (s.deref p).getD default

/-- A member function call `p->f(…)` that rewrites fields of the object. -/
def State.update (s : State) (p : Nat) (f : CUser → CUser) : State :=
  { s with heap := updateHeap s.heap p f }

/-- The statement `delete pUser`. -/
def State.delete (s : State) (p : Nat) : State :=
  { s with heap := s.heap.set p none }.emit (Event.delete p)

/-- Modelled from the spec: `CZNC::FindUser`, not in `src/`; the registry's
`find(username)`, with `none` for `NULL`. -/
def FindUser (s : State) (sUsername : CString) : Option Nat :=
  s.m_msUsers.lookup sUsername

/-- Modelled from the spec: `CModule::GetNV`, not in `src/`; a read of the
policy store, where an unset name reads as the empty string. -/
def GetNV (s : State) (sName : CString) : CString :=
  (s.nv.lookup sName).getD ""

/-- The member `CreateUser()`, line 260. -/
def CreateUser (lib : Lib) (s : State) : Bool :=
  lib.ToBool (GetNV s "CreateUser")

/-- The member `CreateFromLDAP()`, line 265. -/
def CreateFromLDAP (lib : Lib) (s : State) : Bool :=
  lib.ToBool (GetNV s "CreateFromLDAP")

/-- The member `CloneUser()`, line 270. -/
def CloneUser (s : State) : CString :=
  GetNV s "CloneUser"

/-- The member `ShouldCloneUser()`, line 274. -/
def ShouldCloneUser (s : State) : Bool :=
  !(GetNV s "CloneUser").isEmpty

/-- The module constructor: `m_Cache.SetTTL(60000)`, with `m_sMethod` empty,
inside a host that has the given heap, registry and stored settings. -/
def MODCONSTRUCTOR (heap : List (Option CUser)) (m_msUsers : List (CString × Nat))
    (nv : List (CString × CString)) : State :=
  { heap := heap
    m_msUsers := m_msUsers
    m_Cache := (TCacheMap.mk 0 []).SetTTL 60000
    m_sMethod := ""
    nv := nv
    trace := [] }

/-- Modelled from the spec: the constructor `CUser(sUserName)`, not in `src/`;
a bare account record for the name, its other fields as the host sets them. -/
def CUser.new (lib : Lib) (sUserName : CString) : CUser :=
  { lib.blank with m_sUserName := sUserName }

/-- Modelled from the spec: `CUser::SetNick`, not in `src/`; stores the nick. -/
def CUser.SetNick (s : CString) (u : CUser) : CUser := { u with m_sNick := s }

/-- Modelled from the spec: `CUser::SetIdent`, not in `src/`; stores the ident. -/
def CUser.SetIdent (s : CString) (u : CUser) : CUser := { u with m_sIdent := s }

/-- Modelled from the spec: `CUser::SetAltNick`, not in `src/`; stores the
alternate nick. -/
def CUser.SetAltNick (s : CString) (u : CUser) : CUser := { u with m_sAltNick := s }

/-- Modelled from the spec: `CUser::SetRealName`, not in `src/`; stores the
display name. -/
def CUser.SetRealName (s : CString) (u : CUser) : CUser := { u with m_sRealName := s }

/-- Modelled from the spec: `CUser::SetPass`, not in `src/`; stores the
credential marker: password hash, hash type and salt. -/
def CUser.SetPass (s : CString) (eHash : eHashType) (sSalt : CString) (u : CUser) : CUser :=
  { u with m_sPass := s, m_eHashType := eHash, m_sPassSalt := sSalt }

/-- Lines 117-130 of `OnLoginAttempt`: the cache lookup, the two SASL calls
joined by a short-circuit `&&`, the cache insertion on success, and the
unconditional `sasl_dispose`. Returns `bSuccess`. -/
def checkCredentials (lib : Lib) (env : Env) (s : State) (sUsername sPassword : CString) :
    Bool × State :=
  let sCacheKey := lib.MD5 (sUsername ++ ":" ++ sPassword)
  let s1 := s.emit (Event.HasItem sCacheKey)
  if s1.m_Cache.HasItem env.now sCacheKey then
    (true, s1.emit Event.sasl_dispose)
  else
    let s2 := s1.emit Event.sasl_server_new
    if env.sasl_server_new = SASL_OK then
      let s3 := s2.emit (Event.sasl_checkpass sUsername sPassword)
      if env.sasl_checkpass sUsername sPassword = SASL_OK then
        let s4 := { s3 with m_Cache := s3.m_Cache.AddItem env.now sCacheKey }.emit
          (Event.AddItem sCacheKey)
        (true, s4.emit Event.sasl_dispose)
      else
        (false, s3.emit Event.sasl_dispose)
    else
      (false, s2.emit Event.sasl_dispose)

/-- Lines 137-151: the `ShouldCloneUser()` block. `Clone` is reached only when
`pUser` is still non-null, that is when the template was found; what `Clone`
(not in `src/`) reports and writes into its target is the answer of `env`. -/
def cloneStep (env : Env) (s : State) (p : Nat) : Option Nat × State :=
  if ShouldCloneUser s then
    match FindUser s (CloneUser s) with
    | none => (none, s.delete p)
    | some pBaseUser =>
      let s1 := s.emit (Event.Clone p pBaseUser)
      match env.Clone (s.obj p) (s.obj pBaseUser) with
      | none => (none, s1.delete p)
      | some u => (some p, { s1 with heap := s1.heap.set p (some u) })
  else
    (some p, s)

/-- Lines 153-156: `SetPass("::", CUser::HASH_MD5, "::")` on a non-null `pUser`. -/
def setPassStep (s : State) (pUser : Option Nat) : State :=
  match pUser with
  | some p => (s.update p (CUser.SetPass "::" eHashType.HASH_MD5 "::")).emit (Event.SetPass p)
  | none => s

/-- Lines 158-162: `CZNC::Get().AddUser(pUser, sErr)` on a non-null `pUser`.
`AddUser` itself is not in `src/` and is modelled from the spec: when the host
accepts the object it is entered in the registry under its name. Otherwise the
object is deleted. -/
def addUserStep (env : Env) (s : State) (pUser : Option Nat) : Option Nat × State :=
  match pUser with
  | some p =>
    let s1 := s.emit (Event.AddUser p (s.obj p))
    if env.AddUser (s.obj p) then
      (some p, { s1 with m_msUsers := ((s.obj p).m_sUserName, p) :: s1.m_msUsers })
    else
      (none, s1.delete p)
  | none => (none, s)

/-- One of the loops `for (i…) networkUsers[i]->Set…` of lines 180-195. -/
def forNetworkUsers (h : List (Option CUser)) (networkUsers : List Nat) (f : CUser → CUser) :
    List (Option CUser) :=
  networkUsers.foldl (fun acc q => updateHeap acc q f) h

/-- Lines 167-195: the `CreateFromLDAP` block, as what it does to the heap.
The network users are collected once, before any field is set. The loop of
lines 180-183 calls `SetNick` and then `SetIdent` on each network user. -/
def deriveIdentityHeap (h : List (Option CUser)) (p : Nat) : List (Option CUser) :=
  let pUser := (derefHeap h p).getD default
  let networks := pUser.m_vIRCNetworks
  let networkUsers := networks.map (fun n => n.m_pUser)
  let nick := pUser.m_sUserName
  let h := updateHeap h p (CUser.SetNick nick)
  let h := updateHeap h p (CUser.SetIdent nick)
  let h := forNetworkUsers h networkUsers (fun u => CUser.SetIdent nick (CUser.SetNick nick u))
  let nick := nick ++ "-"
  let h := updateHeap h p (CUser.SetAltNick nick)
  let h := forNetworkUsers h networkUsers (CUser.SetAltNick nick)
  let nick := nick ++ "ZNC"
  let h := updateHeap h p (CUser.SetRealName nick)
  forNetworkUsers h networkUsers (CUser.SetRealName nick)

/-- Lines 167-195 on the state: only the heap changes. -/
def deriveIdentity (s : State) (p : Nat) : State :=
  { s with heap := deriveIdentityHeap s.heap p }

/-- Lines 133-197: the body of `if (!pUser)`. Returns the final `pUser`. -/
def provision (lib : Lib) (env : Env) (s : State) (sUsername : CString) : Option Nat × State :=
  let p := s.heap.length
  let s0 := { s with heap := s.heap ++ [some (CUser.new lib sUsername)] }.emit (Event.new_CUser p)
  let r1 := cloneStep env s0 p
  let s2 := setPassStep r1.2 r1.1
  let r3 := addUserStep env s2 r1.1
  match r3.1 with
  | some q => if CreateFromLDAP lib r3.2 then (some q, deriveIdentity r3.2 q) else (some q, r3.2)
  | none => (none, r3.2)

/-- Lines 133-197: `if (!pUser) { … }`; an account that was found is kept
as it is. -/
def provisionIfMissing (lib : Lib) (env : Env) (s : State) (pUser : Option Nat)
    (sUsername : CString) : Option Nat × State :=
  match pUser with
  | some p => (some p, s)
  | none => provision lib env s sUsername

/-- The function `CSASLAuthMod::OnLoginAttempt`, lines 106-206. -/
def OnLoginAttempt (lib : Lib) (env : Env) (s : State) (sUsername sPassword : CString) :
    EModRet × State :=
  let pUser := FindUser s sUsername
  if pUser.isNone && !(CreateUser lib s) then
    (EModRet.CONTINUE, s)
  else
    let r := checkCredentials lib env s sUsername sPassword
    if r.1 then
      let r2 := provisionIfMissing lib env r.2 pUser sUsername
      match r2.1 with
      | some p => (EModRet.HALT, r2.2.emit (Event.AcceptLogin p))
      | none => (EModRet.CONTINUE, r2.2)
    else
      (EModRet.CONTINUE, r.2)

/-- The characters `CString::TrimRight` removes by default. -/
def isTrimChar (c : Char) : Bool :=
  c == ' ' || c == '\t' || c == '\r' || c == '\n'

/-- Modelled from the spec: `CString::TrimRight()`, not in `src/`; it removes
the white space at the end of the string. -/
def TrimRight (s : CString) : CString :=
  String.mk (s.data.rdropWhile isTrimChar)

/-- The scan behind `Split`: `cur` holds the current token, reversed. -/
def SplitAux : List Char → List Char → List CString
  | [], cur => if cur.isEmpty then [] else [String.mk cur.reverse]
  | c :: cs, cur =>
    if c = ' ' then
      if cur.isEmpty then SplitAux cs [] else String.mk cur.reverse :: SplitAux cs []
    else
      SplitAux cs (c :: cur)

/-- Modelled from the spec: `CString::Split(" ", vsArgs, false)`, not in
`src/`; the tokens of a space-separated string, empty tokens dropped. -/
def Split (sArgs : CString) : List CString :=
  SplitAux sArgs.data []

/-- The test of line 76. -/
def isMethod (lib : Lib) (it : CString) : Bool :=
  lib.Equals it "saslauthd" || lib.Equals it "auxprop"

/-- Lines 75-82 of `OnLoad`: the loop over `vsArgs`, carrying the state and
`sMessage`. -/
def OnLoadLoop (lib : Lib) : List CString → State × CString → State × CString
  | [], acc => acc
  | it :: rest, acc =>
    if isMethod lib it then
      OnLoadLoop lib rest ({ acc.1 with m_sMethod := acc.1.m_sMethod ++ (it ++ " ") }, acc.2)
    else
      OnLoadLoop lib rest
        (acc.1.emit (Event.PrintError ("Ignoring invalid SASL pwcheck method: " ++ it)),
          "Ignored invalid SASL pwcheck method")

/-- The function `CSASLAuthMod::OnLoad`, lines 70-104; `sasl_server_init` is
the result code the SASL library returns if it is called. Returns the result
and the final `sMessage`. Lines 96-101 fill the callback table `m_cbs`, which
is not part of `State`. -/
def OnLoad (lib : Lib) (sasl_server_init : Int) (s : State) (sArgs sMessage : CString) :
    Bool × CString × State :=
  let r := OnLoadLoop lib (Split sArgs) (s, sMessage)
  let s1 := { r.1 with m_sMethod := TrimRight r.1.m_sMethod }
  if s1.m_sMethod.isEmpty then
    (false, "Need a pwcheck method as argument (saslauthd, auxprop)", s1)
  else
    let s2 := s1.emit Event.sasl_server_init
    if sasl_server_init ≠ SASL_OK then
      (false, "SASL Could Not Be Initialized - Halting Startup", s2)
    else
      (true, r.2, s2)

/-- One thing that happens to the module's world between two moments: a login
attempt, or the host changing its own data (accounts edited, settings changed
by a command). The host never touches `m_Cache`. -/
inductive Step where
  | login (env : Env) (sUsername sPassword : CString)
  | host (heap : List (Option CUser)) (m_msUsers : List (CString × Nat))
      (nv : List (CString × CString))

/-- The state after one step. -/
def step (lib : Lib) (s : State) : Step → State
  | Step.login env sUsername sPassword => (OnLoginAttempt lib env s sUsername sPassword).2
  | Step.host heap m_msUsers nv => { s with heap := heap, m_msUsers := m_msUsers, nv := nv }

/-- The state after a sequence of steps. -/
def run (lib : Lib) (s : State) : List Step → State
  | [] => s
  | st :: rest => run lib (step lib s st) rest

/-- The cache key of line 117. -/
def sCacheKey (lib : Lib) (sUsername sPassword : CString) : CString :=
  lib.MD5 (sUsername ++ ":" ++ sPassword)

/-- The gate of line 113 lets the attempt through. -/
def passesGate (lib : Lib) (s : State) (sUsername : CString) : Bool :=
  !((FindUser s sUsername).isNone && !(CreateUser lib s))

/-- The backend is asked and confirms: the cache misses and `sasl_server_new`
and `sasl_checkpass` both return `SASL_OK`. -/
def backendVerifies (lib : Lib) (env : Env) (s : State) (sUsername sPassword : CString) : Bool :=
  passesGate lib s sUsername
    && !(s.m_Cache.HasItem env.now (sCacheKey lib sUsername sPassword))
    && decide (env.sasl_server_new = SASL_OK)
    && decide (env.sasl_checkpass sUsername sPassword = SASL_OK)

/-- The attempts of a run that the backend verified, as (username, password,
time), oldest first. -/
def verifications (lib : Lib) (s : State) : List Step → List (CString × CString × Nat)
  | [] => []
  | Step.login env u p :: rest =>
    (if backendVerifies lib env s u p then [(u, p, env.now)] else [])
      ++ verifications lib (step lib s (Step.login env u p)) rest
  | Step.host h m n :: rest => verifications lib (step lib s (Step.host h m n)) rest

/-- How often the backend was called: the `sasl_server_new` and
`sasl_checkpass` entries of a trace. -/
def backendCalls (t : List Event) : Nat :=
  t.countP (fun e => match e with
    | Event.sasl_server_new => true
    | Event.sasl_checkpass _ _ => true
    | _ => false)

/-- How often `AcceptLogin` was called. -/
def acceptCalls (t : List Event) : Nat :=
  t.countP (fun e => match e with
    | Event.AcceptLogin _ => true
    | _ => false)

/-- The calls an operation added to the trace of `s`. -/
def newEvents (s s' : State) : List Event :=
  s'.trace.drop s.trace.length

/-! ## Notions the statements use -/

/-- What `pUser` holds after the clone block of lines 137-151: the fresh
object, the result of `Clone`, or nothing when the template is missing or
`Clone` reports failure. -/
def cloneOutcome (lib : Lib) (env : Env) (s : State) (sUsername : CString) : Option CUser :=
  if ShouldCloneUser s then
    match FindUser s (CloneUser s) with
    | none => none
    | some pBaseUser =>
      env.Clone (CUser.new lib sUsername)
        ((derefHeap (s.heap ++ [some (CUser.new lib sUsername)]) pBaseUser).getD default)
  else
    some (CUser.new lib sUsername)

/-- The object handed to `AddUser`, if provisioning gets that far. -/
def candidate (lib : Lib) (env : Env) (s : State) (sUsername : CString) : Option CUser :=
  (cloneOutcome lib env s sUsername).map (CUser.SetPass "::" eHashType.HASH_MD5 "::")

/-- Provisioning succeeds: the template, if one is configured, exists, `Clone`
reports success and `AddUser` reports success. -/
def provisionSucceeds (lib : Lib) (env : Env) (s : State) (sUsername : CString) : Bool :=
  match candidate lib env s sUsername with
  | some c => env.AddUser c
  | none => false

/-- The state right after `pUser = new CUser(sUsername)`. -/
def allocated (lib : Lib) (s : State) (sUsername : CString) : State :=
  { s with heap := s.heap ++ [some (CUser.new lib sUsername)] }.emit
    (Event.new_CUser s.heap.length)

/-- The password fields `SetPass("::", CUser::HASH_MD5, "::")` leaves. -/
def hasSentinelPass (u : CUser) : Prop :=
  u.m_sPass = "::" ∧ u.m_eHashType = eHashType.HASH_MD5 ∧ u.m_sPassSalt = "::"

/-- The calls lines 117-130 can make. -/
def isCheckEvent : Event → Prop
  | Event.HasItem _ => True
  | Event.AddItem _ => True
  | Event.sasl_server_new => True
  | Event.sasl_checkpass _ _ => True
  | Event.sasl_dispose => True
  | _ => False

/-- The calls the provisioning block can make; an `AddUser` call always
carries an object with the sentinel password. -/
def isProvisionEvent : Event → Prop
  | Event.new_CUser _ => True
  | Event.Clone _ _ => True
  | Event.SetPass _ => True
  | Event.delete _ => True
  | Event.AddUser _ user => hasSentinelPass user
  | _ => False

/-- The trace of `s'` is the trace of `s` followed by calls that satisfy `P`. -/
def TraceGrows (P : Event → Prop) (s s' : State) : Prop :=
  ∃ evs, s'.trace = s.trace ++ evs ∧ ∀ e ∈ evs, P e

/-- The calls lines 117-130 make, in order. -/
def checkEvents (lib : Lib) (env : Env) (s : State) (u p : CString) : List Event :=
  if s.m_Cache.HasItem env.now (sCacheKey lib u p) then
    [Event.HasItem (sCacheKey lib u p), Event.sasl_dispose]
  else if env.sasl_server_new = SASL_OK then
    if env.sasl_checkpass u p = SASL_OK then
      [Event.HasItem (sCacheKey lib u p), Event.sasl_server_new, Event.sasl_checkpass u p,
        Event.AddItem (sCacheKey lib u p), Event.sasl_dispose]
    else
      [Event.HasItem (sCacheKey lib u p), Event.sasl_server_new, Event.sasl_checkpass u p,
        Event.sasl_dispose]
  else
    [Event.HasItem (sCacheKey lib u p), Event.sasl_server_new, Event.sasl_dispose]

/-- The credential counts as verified: the cache holds its key, or both SASL
calls return `SASL_OK`. -/
def verified (lib : Lib) (env : Env) (s : State) (u p : CString) : Bool :=
  s.m_Cache.HasItem env.now (sCacheKey lib u p)
    || (decide (env.sasl_server_new = SASL_OK) && decide (env.sasl_checkpass u p = SASL_OK))

/-- An account is available: it existed before the attempt, or creation is
enabled and provisioning succeeds. -/
def accountAvailable (lib : Lib) (env : Env) (s : State) (u : CString) : Bool :=
  (FindUser s u).isSome || (CreateUser lib s && provisionSucceeds lib env s u)

/-- The provisioning block runs: no account is found, `CreateUser` is on and
the credential is verified. -/
def provisioningRuns (lib : Lib) (env : Env) (s : State) (u p : CString) : Bool :=
  (FindUser s u).isNone && CreateUser lib s && verified lib env s u p

/-- The four fields the `CreateFromLDAP` block writes, derived from `nick`. -/
def CUser.withIdentity (nick : CString) (u : CUser) : CUser :=
  { u with m_sNick := nick, m_sIdent := nick, m_sAltNick := nick ++ "-",
           m_sRealName := nick ++ "-" ++ "ZNC" }

/-! ## Concrete instances -/

/-- A library instance for concrete runs: the digest is the identity (so it
has no collisions), `"yes"` is the one true setting, `Equals` is equality. -/
def demoLib : Lib :=
  { MD5 := fun x => x
    ToBool := fun x => x == "yes"
    Equals := fun a b => a == b
    blank := default }

/-- A backend that is up and accepts every credential at time `now`; `Clone`
copies everything but the name from the template and `AddUser` accepts. -/
def demoEnv (now : Nat) : Env :=
  { now := now
    sasl_server_new := SASL_OK
    sasl_checkpass := fun _ _ => SASL_OK
    Clone := fun target base => some { base with m_sUserName := target.m_sUserName }
    AddUser := fun _ => true }

/-- A backend that cannot be constructed. -/
def downEnv (now : Nat) : Env :=
  { demoEnv now with sasl_server_new := -1 }

/-- A fresh module in an empty host with `CreateUser` off. -/
def closedState : State := MODCONSTRUCTOR [] [] [("CreateUser", "no")]

/-- A fresh module in an empty host with `CreateUser` and `CreateFromLDAP` on
and no `CloneUser`. -/
def ldapState : State :=
  MODCONSTRUCTOR [] [] [("CreateUser", "yes"), ("CreateFromLDAP", "yes")]

/-- A library whose fresh `CUser` already has one network, owned by the
object at address 0. -/
def subIdLib : Lib :=
  { demoLib with blank := { (default : CUser) with m_vIRCNetworks := [⟨"net", 0⟩] } }

/-- The configured clone template has no account. -/
def templateMissing (s : State) : Bool :=
  ShouldCloneUser s && (FindUser s (CloneUser s)).isNone

/-- The clone template exists and `Clone` reports failure. -/
def cloneFails (lib : Lib) (env : Env) (s : State) (sUsername : CString) : Bool :=
  ShouldCloneUser s && (FindUser s (CloneUser s)).isSome
    && (cloneOutcome lib env s sUsername).isNone

/-- The host's `AddUser` is reached and reports failure. -/
def addUserFails (lib : Lib) (env : Env) (s : State) (sUsername : CString) : Bool :=
  match candidate lib env s sUsername with
  | some c => !env.AddUser c
  | none => false

/-- A fresh module in an empty host with `CreateUser` on and `CloneUser` set
to "template", an account that does not exist. -/
def cloneState : State :=
  MODCONSTRUCTOR [] [] [("CreateUser", "yes"), ("CloneUser", "template")]

/-- How many registry entries carry the name `sUsername`. -/
def accountsNamed (s : State) (sUsername : CString) : Nat :=
  s.m_msUsers.countP (fun e => e.1 == sUsername)

/-- A template account with its own nick and password. -/
def templateUser : CUser :=
  { m_sUserName := "template", m_sNick := "tmpl", m_sAltNick := "tmpl_", m_sIdent := "tmpl",
    m_sRealName := "Template", m_sPass := "5f4dcc3b5aa765d61d8327deb882cf99",
    m_eHashType := eHashType.HASH_MD5, m_sPassSalt := "",
    m_vIRCNetworks := [] }

/-- A fresh module in a host that has the account "template", with
`CreateUser`, `CloneUser` and `CreateFromLDAP` all set. -/
def fullState : State :=
  MODCONSTRUCTOR [some templateUser] [("template", 0)]
    [("CreateUser", "yes"), ("CloneUser", "template"), ("CreateFromLDAP", "yes")]

/-- The shape of an MD5 digest as `CString::MD5` prints it: 32 hexadecimal
digits. -/
def isMD5Digest (d : CString) : Bool :=
  d.length == 32 && d.data.all (fun c => c.isDigit || ('a' ≤ c && c ≤ 'f'))

/-- A run in which two different pairs have the same key: "a:b" with
password "c" is verified at time 0, "a" with password "b:c" at time 70000. -/
def collidingRun : List Step :=
  [Step.login (demoEnv 0) "a:b" "c", Step.login (demoEnv 70000) "a" "b:c"]

/-- The characters of `m_sMethod` as the loop leaves it: each accepted
token followed by one space. -/
def spaced (l : List CString) : List Char :=
  (l.map (fun t => t.data ++ [' '])).flatten

/-- The characters of the tokens joined by single spaces. -/
def joined : List CString → List Char
  | [] => []
  | a :: rest => a.data ++ (rest.map (fun t => ' ' :: t.data)).flatten

/-- The list of characters ends in a character `TrimRight` keeps. -/
def endsClean (x : List Char) : Prop :=
  ∃ c, x.getLast? = some c ∧ isTrimChar c = false

/-- The calls to `CUtils::PrintError` for the rejected tokens. -/
def rejectedErrors (lib : Lib) (vsArgs : List CString) : List Event :=
  (vsArgs.filter (fun t => !isMethod lib t)).map
    (fun t => Event.PrintError ("Ignoring invalid SASL pwcheck method: " ++ t))

/-! # Theorems -/

/-! ## The heap -/

theorem derefHeap_append_left (h l : List (Option CUser)) (p : Nat) (hp : p < h.length) :
    derefHeap (h ++ l) p = derefHeap h p := by
  unfold derefHeap
  rw [List.getElem?_append_left hp]

theorem derefHeap_concat (h : List (Option CUser)) (x : Option CUser) :
    derefHeap (h ++ [x]) h.length = x := by
  unfold derefHeap
  cases x <;> simp

theorem set_concat (h : List (Option CUser)) (x y : Option CUser) :
    (h ++ [x]).set h.length y = h ++ [y] := by
  induction h with
  | nil => rfl
  | cons a h ih => simp [ih]

theorem updateHeap_concat (h : List (Option CUser)) (u : CUser) (f : CUser → CUser) :
    updateHeap (h ++ [some u]) h.length f = h ++ [some (f u)] := by
  unfold updateHeap
  rw [derefHeap_concat]
  exact set_concat h _ _

@[simp]
theorem length_updateHeap (h : List (Option CUser)) (p : Nat) (f : CUser → CUser) :
    (updateHeap h p f).length = h.length := by
  unfold updateHeap
  split <;> simp

theorem derefHeap_updateHeap (h : List (Option CUser)) (p q : Nat) (f : CUser → CUser) :
    derefHeap (updateHeap h p f) q = if q = p then (derefHeap h p).map f else derefHeap h q := by
  unfold updateHeap
  cases hd : derefHeap h p with
  | none =>
    simp only
    split
    · rename_i hq
      subst hq
      simp [hd]
    · rfl
  | some u =>
    simp only
    have hlt : p < h.length := by
      unfold derefHeap at hd
      by_contra hge
      rw [List.getElem?_eq_none (by omega)] at hd
      simp at hd
    by_cases hq : q = p
    · subst hq
      unfold derefHeap
      simp [List.getElem?_set, hlt]
    · have hpq : ¬ p = q := fun e => hq e.symm
      unfold derefHeap
      simp [List.getElem?_set, hpq, hq]

/-! ## Frame lemmas: what each helper leaves alone -/

@[simp]
theorem emit_heap (s : State) (e : Event) : (s.emit e).heap = s.heap := rfl

@[simp]
theorem emit_m_msUsers (s : State) (e : Event) : (s.emit e).m_msUsers = s.m_msUsers := rfl

@[simp]
theorem emit_m_Cache (s : State) (e : Event) : (s.emit e).m_Cache = s.m_Cache := rfl

@[simp]
theorem emit_nv (s : State) (e : Event) : (s.emit e).nv = s.nv := rfl

@[simp]
theorem emit_trace (s : State) (e : Event) : (s.emit e).trace = s.trace ++ [e] := rfl

@[simp]
theorem emit_deref (s : State) (e : Event) (p : Nat) : (s.emit e).deref p = s.deref p := rfl

@[simp]
theorem emit_obj (s : State) (e : Event) (p : Nat) : (s.emit e).obj p = s.obj p := rfl

@[simp]
theorem update_m_msUsers (s : State) (p : Nat) (f : CUser → CUser) :
    (s.update p f).m_msUsers = s.m_msUsers := rfl

@[simp]
theorem update_m_Cache (s : State) (p : Nat) (f : CUser → CUser) :
    (s.update p f).m_Cache = s.m_Cache := rfl

@[simp]
theorem update_nv (s : State) (p : Nat) (f : CUser → CUser) :
    (s.update p f).nv = s.nv := rfl

@[simp]
theorem update_trace (s : State) (p : Nat) (f : CUser → CUser) :
    (s.update p f).trace = s.trace := rfl

@[simp]
theorem update_heap (s : State) (p : Nat) (f : CUser → CUser) :
    (s.update p f).heap = updateHeap s.heap p f := rfl

@[simp]
theorem delete_m_msUsers (s : State) (p : Nat) : (s.delete p).m_msUsers = s.m_msUsers := rfl

@[simp]
theorem delete_m_Cache (s : State) (p : Nat) : (s.delete p).m_Cache = s.m_Cache := rfl

@[simp]
theorem delete_nv (s : State) (p : Nat) : (s.delete p).nv = s.nv := rfl

@[simp]
theorem delete_trace (s : State) (p : Nat) :
    (s.delete p).trace = s.trace ++ [Event.delete p] := rfl

@[simp]
theorem delete_heap (s : State) (p : Nat) : (s.delete p).heap = s.heap.set p none := rfl

@[simp]
theorem deriveIdentity_m_msUsers (s : State) (p : Nat) :
    (deriveIdentity s p).m_msUsers = s.m_msUsers := rfl

@[simp]
theorem deriveIdentity_m_Cache (s : State) (p : Nat) :
    (deriveIdentity s p).m_Cache = s.m_Cache := rfl

@[simp]
theorem deriveIdentity_nv (s : State) (p : Nat) :
    (deriveIdentity s p).nv = s.nv := rfl

@[simp]
theorem deriveIdentity_trace (s : State) (p : Nat) :
    (deriveIdentity s p).trace = s.trace := rfl

@[simp]
theorem deriveIdentity_heap (s : State) (p : Nat) :
    (deriveIdentity s p).heap = deriveIdentityHeap s.heap p := rfl

/-- The four ways through the clone block of lines 137-151. -/
theorem cloneStep_cases (env : Env) (s : State) (p : Nat) :
    (ShouldCloneUser s = false → cloneStep env s p = (some p, s))
    ∧ (ShouldCloneUser s = true → FindUser s (CloneUser s) = none →
        cloneStep env s p = (none, s.delete p))
    ∧ (∀ b, ShouldCloneUser s = true → FindUser s (CloneUser s) = some b →
        env.Clone (s.obj p) (s.obj b) = none →
        cloneStep env s p = (none, (s.emit (Event.Clone p b)).delete p))
    ∧ (∀ b c, ShouldCloneUser s = true → FindUser s (CloneUser s) = some b →
        env.Clone (s.obj p) (s.obj b) = some c →
        cloneStep env s p =
          (some p, { s.emit (Event.Clone p b) with heap := s.heap.set p (some c) })) := by
  refine ⟨?_, ?_, ?_, ?_⟩
  · intro h; simp [cloneStep, h]
  · intro h1 h2; simp [cloneStep, h1, h2]
  · intro b h1 h2 h3; simp [cloneStep, h1, h2, h3]
  · intro b c h1 h2 h3; simp [cloneStep, h1, h2, h3]

@[simp]
theorem cloneStep_m_Cache (env : Env) (s : State) (p : Nat) :
    (cloneStep env s p).2.m_Cache = s.m_Cache := by
  unfold cloneStep
  split
  · split
    · rfl
    · split <;> rfl
  · rfl

@[simp]
theorem cloneStep_nv (env : Env) (s : State) (p : Nat) :
    (cloneStep env s p).2.nv = s.nv := by
  unfold cloneStep
  split
  · split
    · rfl
    · split <;> rfl
  · rfl

@[simp]
theorem cloneStep_m_msUsers (env : Env) (s : State) (p : Nat) :
    (cloneStep env s p).2.m_msUsers = s.m_msUsers := by
  unfold cloneStep
  split
  · split
    · rfl
    · split <;> rfl
  · rfl

@[simp]
theorem setPassStep_m_Cache (s : State) (pUser : Option Nat) :
    (setPassStep s pUser).m_Cache = s.m_Cache := by
  cases pUser <;> simp [setPassStep]

@[simp]
theorem setPassStep_nv (s : State) (pUser : Option Nat) :
    (setPassStep s pUser).nv = s.nv := by
  cases pUser <;> simp [setPassStep]

@[simp]
theorem setPassStep_m_msUsers (s : State) (pUser : Option Nat) :
    (setPassStep s pUser).m_msUsers = s.m_msUsers := by
  cases pUser <;> simp [setPassStep]

@[simp]
theorem addUserStep_m_Cache (env : Env) (s : State) (pUser : Option Nat) :
    (addUserStep env s pUser).2.m_Cache = s.m_Cache := by
  cases pUser with
  | none => rfl
  | some p => unfold addUserStep; simp only; split <;> rfl

@[simp]
theorem addUserStep_nv (env : Env) (s : State) (pUser : Option Nat) :
    (addUserStep env s pUser).2.nv = s.nv := by
  cases pUser with
  | none => rfl
  | some p => unfold addUserStep; simp only; split <;> rfl

@[simp]
theorem provision_m_Cache (lib : Lib) (env : Env) (s : State) (u : CString) :
    (provision lib env s u).2.m_Cache = s.m_Cache := by
  unfold provision
  simp only
  split
  · split <;> simp
  · simp

@[simp]
theorem provision_nv (lib : Lib) (env : Env) (s : State) (u : CString) :
    (provision lib env s u).2.nv = s.nv := by
  unfold provision
  simp only
  split
  · split <;> simp
  · simp

@[simp]
theorem checkCredentials_heap (lib : Lib) (env : Env) (s : State) (u p : CString) :
    (checkCredentials lib env s u p).2.heap = s.heap := by
  unfold checkCredentials
  simp only
  split
  · rfl
  · split
    · split <;> rfl
    · rfl

@[simp]
theorem checkCredentials_m_msUsers (lib : Lib) (env : Env) (s : State) (u p : CString) :
    (checkCredentials lib env s u p).2.m_msUsers = s.m_msUsers := by
  unfold checkCredentials
  simp only
  split
  · rfl
  · split
    · split <;> rfl
    · rfl

@[simp]
theorem checkCredentials_nv (lib : Lib) (env : Env) (s : State) (u p : CString) :
    (checkCredentials lib env s u p).2.nv = s.nv := by
  unfold checkCredentials
  simp only
  split
  · rfl
  · split
    · split <;> rfl
    · rfl

/-- The value of `bSuccess` after lines 117-128. -/
theorem checkCredentials_fst (lib : Lib) (env : Env) (s : State) (u p : CString) :
    (checkCredentials lib env s u p).1 =
      (s.m_Cache.HasItem env.now (sCacheKey lib u p)
        || (decide (env.sasl_server_new = SASL_OK)
          && decide (env.sasl_checkpass u p = SASL_OK))) := by
  unfold checkCredentials sCacheKey
  simp only [emit_m_Cache]
  split
  · simp [*]
  · split
    · split <;> simp [*]
    · simp [*]

/-- The cache after lines 117-128: one insertion exactly when the cache missed
and both SASL calls returned `SASL_OK`. -/
theorem checkCredentials_m_Cache (lib : Lib) (env : Env) (s : State) (u p : CString) :
    (checkCredentials lib env s u p).2.m_Cache =
      if (!(s.m_Cache.HasItem env.now (sCacheKey lib u p))
          && decide (env.sasl_server_new = SASL_OK)
          && decide (env.sasl_checkpass u p = SASL_OK)) = true
      then s.m_Cache.AddItem env.now (sCacheKey lib u p) else s.m_Cache := by
  unfold checkCredentials sCacheKey
  simp only [emit_m_Cache]
  split
  · simp [*]
  · split
    · split <;> simp [*]
    · simp [*]

@[simp]
theorem provisionIfMissing_m_Cache (lib : Lib) (env : Env) (s : State)
    (pUser : Option Nat) (u : CString) :
    (provisionIfMissing lib env s pUser u).2.m_Cache = s.m_Cache := by
  cases pUser <;> simp [provisionIfMissing]

@[simp]
theorem provisionIfMissing_nv (lib : Lib) (env : Env) (s : State)
    (pUser : Option Nat) (u : CString) :
    (provisionIfMissing lib env s pUser u).2.nv = s.nv := by
  cases pUser <;> simp [provisionIfMissing]

/-- The cache after a whole attempt. -/
theorem OnLoginAttempt_m_Cache (lib : Lib) (env : Env) (s : State) (u p : CString) :
    (OnLoginAttempt lib env s u p).2.m_Cache =
      if backendVerifies lib env s u p = true
      then s.m_Cache.AddItem env.now (sCacheKey lib u p) else s.m_Cache := by
  unfold OnLoginAttempt backendVerifies passesGate
  simp only
  split
  · rename_i h
    simp [h]
  · rename_i h
    have hc := checkCredentials_m_Cache lib env s u p
    simp only [h, Bool.not_false, Bool.true_and]
    split
    · split <;> simp [hc, Bool.and_assoc]
    · simp [hc, Bool.and_assoc]

theorem allocated_obj (lib : Lib) (s : State) (u : CString) :
    (allocated lib s u).obj s.heap.length = CUser.new lib u := by
  unfold allocated State.obj State.deref
  simp [derefHeap_concat]

/-- After the clone block: `pUser` is non-null exactly when `cloneOutcome` is
some object, and that object is what the new heap cell holds. -/
theorem cloneStep_allocated (lib : Lib) (env : Env) (s : State) (u : CString) :
    (cloneStep env (allocated lib s u) s.heap.length).1
        = (cloneOutcome lib env s u).map (fun _ => s.heap.length)
    ∧ (cloneStep env (allocated lib s u) s.heap.length).2.heap
        = s.heap ++ [cloneOutcome lib env s u] := by
  obtain ⟨h1, h2, h3, h4⟩ := cloneStep_cases env (allocated lib s u) s.heap.length
  have hS : ShouldCloneUser (allocated lib s u) = ShouldCloneUser s := rfl
  have hF : FindUser (allocated lib s u) (CloneUser (allocated lib s u))
      = FindUser s (CloneUser s) := rfl
  have hheap : (allocated lib s u).heap = s.heap ++ [some (CUser.new lib u)] := rfl
  rw [hS] at h1 h2 h3 h4
  rw [hF] at h2 h3 h4
  cases hs : ShouldCloneUser s with
  | false =>
    rw [h1 hs]
    simp [cloneOutcome, hs, hheap]
  | true =>
    cases hf : FindUser s (CloneUser s) with
    | none =>
      rw [h2 hs hf]
      simp [cloneOutcome, hs, hf, hheap, set_concat]
    | some b =>
      have hb : (allocated lib s u).obj b
          = (derefHeap (s.heap ++ [some (CUser.new lib u)]) b).getD default := rfl
      cases hc : env.Clone (CUser.new lib u)
          ((derefHeap (s.heap ++ [some (CUser.new lib u)]) b).getD default) with
      | none =>
        rw [h3 b hs hf (by rw [allocated_obj, hb]; exact hc)]
        simp [cloneOutcome, hs, hf, hc, hheap, set_concat]
      | some c =>
        rw [h4 b c hs hf (by rw [allocated_obj, hb]; exact hc)]
        simp [cloneOutcome, hs, hf, hc, hheap, set_concat]

/-- What the provisioning block returns and what it leaves in the registry and
on the heap, in terms of the answers of `Clone` and `AddUser`. -/
theorem provision_result (lib : Lib) (env : Env) (s : State) (u : CString) :
    (provision lib env s u).1
        = (if provisionSucceeds lib env s u then some s.heap.length else none)
    ∧ (provision lib env s u).2.m_msUsers
        = (match candidate lib env s u with
          | some c =>
            if env.AddUser c then (c.m_sUserName, s.heap.length) :: s.m_msUsers else s.m_msUsers
          | none => s.m_msUsers)
    ∧ (provision lib env s u).2.heap
        = (match candidate lib env s u with
          | some c =>
            if env.AddUser c then
              (if CreateFromLDAP lib s then deriveIdentityHeap (s.heap ++ [some c]) s.heap.length
                else s.heap ++ [some c])
            else s.heap ++ [none]
          | none => s.heap ++ [none]) := by
  obtain ⟨hc1, hc2⟩ := cloneStep_allocated lib env s u
  have hcm := cloneStep_m_msUsers env (allocated lib s u) s.heap.length
  have hcn := cloneStep_nv env (allocated lib s u) s.heap.length
  have hprov : provision lib env s u =
      (match (addUserStep env (setPassStep (cloneStep env (allocated lib s u) s.heap.length).2
            (cloneStep env (allocated lib s u) s.heap.length).1)
            (cloneStep env (allocated lib s u) s.heap.length).1).1 with
        | some q =>
          if CreateFromLDAP lib (addUserStep env (setPassStep
              (cloneStep env (allocated lib s u) s.heap.length).2
              (cloneStep env (allocated lib s u) s.heap.length).1)
              (cloneStep env (allocated lib s u) s.heap.length).1).2
          then (some q, deriveIdentity (addUserStep env (setPassStep
              (cloneStep env (allocated lib s u) s.heap.length).2
              (cloneStep env (allocated lib s u) s.heap.length).1)
              (cloneStep env (allocated lib s u) s.heap.length).1).2 q)
          else (some q, (addUserStep env (setPassStep
              (cloneStep env (allocated lib s u) s.heap.length).2
              (cloneStep env (allocated lib s u) s.heap.length).1)
              (cloneStep env (allocated lib s u) s.heap.length).1).2)
        | none => (none, (addUserStep env (setPassStep
              (cloneStep env (allocated lib s u) s.heap.length).2
              (cloneStep env (allocated lib s u) s.heap.length).1)
              (cloneStep env (allocated lib s u) s.heap.length).1).2)) := rfl
  rw [hprov]
  generalize cloneStep env (allocated lib s u) s.heap.length = r1 at hc1 hc2 hcm hcn
  obtain ⟨pU, s1⟩ := r1
  simp only at hc1 hc2 hcm hcn
  have hm0 : (allocated lib s u).m_msUsers = s.m_msUsers := rfl
  have hn0 : (allocated lib s u).nv = s.nv := rfl
  rw [hm0] at hcm
  rw [hn0] at hcn
  cases ho : cloneOutcome lib env s u with
  | none =>
    rw [ho] at hc1 hc2
    simp only [Option.map_none'] at hc1
    subst hc1
    simp [provisionSucceeds, candidate, ho, setPassStep, addUserStep, hcm, hc2]
  | some c =>
    rw [ho] at hc1 hc2
    simp only [Option.map_some'] at hc1
    subst hc1
    have hobj : (setPassStep s1 (some s.heap.length)).obj s.heap.length
        = CUser.SetPass "::" eHashType.HASH_MD5 "::" c := by
      simp [setPassStep, State.obj, State.deref, hc2, updateHeap_concat, derefHeap_concat]
    have hheap2 : (setPassStep s1 (some s.heap.length)).heap
        = s.heap ++ [some (CUser.SetPass "::" eHashType.HASH_MD5 "::" c)] := by
      simp [setPassStep, hc2, updateHeap_concat]
    have hldap : ∀ t : State, t.nv = s.nv → CreateFromLDAP lib t = CreateFromLDAP lib s := by
      intro t ht
      simp [CreateFromLDAP, GetNV, ht]
    cases ha : env.AddUser (CUser.SetPass "::" eHashType.HASH_MD5 "::" c) with
    | false =>
      simp [provisionSucceeds, candidate, ho, ha, addUserStep, hobj, hheap2, set_concat, hcm]
    | true =>
      have hl := hldap (addUserStep env (setPassStep s1 (some s.heap.length))
        (some s.heap.length)).2 (by simp [hcn])
      rw [hl]
      cases hL : CreateFromLDAP lib s <;>
        simp [provisionSucceeds, candidate, ho, ha, addUserStep, hobj, hheap2, hcm]

/-! ## The trace -/

theorem TraceGrows.same {P : Event → Prop} {s s' : State} (h : s'.trace = s.trace) :
    TraceGrows P s s' :=
  ⟨[], by simp [h], by simp⟩

theorem TraceGrows.trans {P : Event → Prop} {s s' s'' : State}
    (h1 : TraceGrows P s s') (h2 : TraceGrows P s' s'') : TraceGrows P s s'' := by
  obtain ⟨e1, t1, p1⟩ := h1
  obtain ⟨e2, t2, p2⟩ := h2
  refine ⟨e1 ++ e2, by rw [t2, t1, List.append_assoc], ?_⟩
  intro e he
  rcases List.mem_append.mp he with h | h
  · exact p1 e h
  · exact p2 e h

theorem TraceGrows.mono {P Q : Event → Prop} {s s' : State} (hPQ : ∀ e, P e → Q e)
    (h : TraceGrows P s s') : TraceGrows Q s s' := by
  obtain ⟨evs, t, hp⟩ := h
  exact ⟨evs, t, fun e he => hPQ e (hp e he)⟩

theorem TraceGrows.emit {P : Event → Prop} (s : State) (e : Event) (h : P e) :
    TraceGrows P s (s.emit e) :=
  ⟨[e], rfl, by simpa using h⟩

theorem TraceGrows.newEvents {P : Event → Prop} {s s' : State} (h : TraceGrows P s s') :
    ∀ e ∈ newEvents s s', P e := by
  obtain ⟨evs, t, hp⟩ := h
  unfold CyrusAuthLDAP.newEvents
  rw [t, List.drop_left]
  exact hp

/-- A count over the trace does not move when none of the added calls is
counted. -/
theorem TraceGrows.countP_eq {P : Event → Prop} {s s' : State} (q : Event → Bool)
    (h : TraceGrows P s s') (hq : ∀ e, P e → q e = false) :
    s'.trace.countP q = s.trace.countP q := by
  obtain ⟨evs, t, hp⟩ := h
  rw [t, List.countP_append]
  have : evs.countP q = 0 := by
    rw [List.countP_eq_zero]
    intro e he
    simp [hq e (hp e he)]
  omega

theorem checkCredentials_trace (lib : Lib) (env : Env) (s : State) (u p : CString) :
    (checkCredentials lib env s u p).2.trace = s.trace ++ checkEvents lib env s u p := by
  unfold checkCredentials checkEvents sCacheKey
  simp only [emit_m_Cache]
  split
  · simp
  · split
    · split <;> simp
    · simp

theorem checkEvents_isCheckEvent (lib : Lib) (env : Env) (s : State) (u p : CString) :
    ∀ e ∈ checkEvents lib env s u p, isCheckEvent e := by
  unfold checkEvents
  split
  · simp [isCheckEvent]
  · split
    · split <;> simp [isCheckEvent]
    · simp [isCheckEvent]

theorem checkCredentials_grows (lib : Lib) (env : Env) (s : State) (u p : CString) :
    TraceGrows isCheckEvent s (checkCredentials lib env s u p).2 :=
  ⟨_, checkCredentials_trace lib env s u p, checkEvents_isCheckEvent lib env s u p⟩

theorem cloneStep_grows (env : Env) (s : State) (p : Nat) :
    TraceGrows isProvisionEvent s (cloneStep env s p).2 := by
  unfold cloneStep
  split
  · split
    · exact ⟨[Event.delete p], rfl, by simp [isProvisionEvent]⟩
    · rename_i b _
      split
      · exact ⟨[Event.Clone p b, Event.delete p], by simp, by simp [isProvisionEvent]⟩
      · exact ⟨[Event.Clone p b], rfl, by simp [isProvisionEvent]⟩
  · exact TraceGrows.same rfl

theorem setPassStep_grows (s : State) (pUser : Option Nat) :
    TraceGrows isProvisionEvent s (setPassStep s pUser) := by
  cases pUser with
  | none => exact TraceGrows.same rfl
  | some p => exact ⟨[Event.SetPass p], rfl, by simp [isProvisionEvent]⟩

theorem addUserStep_grows (env : Env) (s : State) (pUser : Option Nat)
    (h : ∀ p, pUser = some p → hasSentinelPass (s.obj p)) :
    TraceGrows isProvisionEvent s (addUserStep env s pUser).2 := by
  cases pUser with
  | none => exact TraceGrows.same rfl
  | some p =>
    unfold addUserStep
    simp only
    split
    · exact ⟨[Event.AddUser p (s.obj p)], rfl, by simpa [isProvisionEvent] using h p rfl⟩
    · exact ⟨[Event.AddUser p (s.obj p), Event.delete p], by simp,
        by simpa [isProvisionEvent] using h p rfl⟩

/-- Every call of the provisioning block is one of `new`, `Clone`, `SetPass`,
`AddUser`, `delete`, and `AddUser` is only ever handed an object whose
password is the sentinel. -/
theorem provision_grows (lib : Lib) (env : Env) (s : State) (u : CString) :
    TraceGrows isProvisionEvent s (provision lib env s u).2 := by
  obtain ⟨hc1, hc2⟩ := cloneStep_allocated lib env s u
  have h0 : TraceGrows isProvisionEvent s (allocated lib s u) :=
    ⟨[Event.new_CUser s.heap.length], rfl, by simp [isProvisionEvent]⟩
  have h1 := cloneStep_grows env (allocated lib s u) s.heap.length
  have h2 := setPassStep_grows (cloneStep env (allocated lib s u) s.heap.length).2
    (cloneStep env (allocated lib s u) s.heap.length).1
  have h3 := addUserStep_grows env (setPassStep (cloneStep env (allocated lib s u) s.heap.length).2
    (cloneStep env (allocated lib s u) s.heap.length).1)
    (cloneStep env (allocated lib s u) s.heap.length).1 (by
      intro p hp
      rw [hc1] at hp
      cases ho : cloneOutcome lib env s u with
      | none => simp [ho] at hp
      | some c =>
        simp only [ho, Option.map_some', Option.some.injEq] at hp
        subst hp
        rw [hc1, ho]
        simp [setPassStep, State.obj, State.deref, hc2, ho, updateHeap_concat, derefHeap_concat,
          hasSentinelPass, CUser.SetPass])
  have h123 := TraceGrows.trans h0 (TraceGrows.trans h1 (TraceGrows.trans h2 h3))
  have hfin : (provision lib env s u).2.trace
      = (addUserStep env (setPassStep (cloneStep env (allocated lib s u) s.heap.length).2
          (cloneStep env (allocated lib s u) s.heap.length).1)
          (cloneStep env (allocated lib s u) s.heap.length).1).2.trace := by
    unfold provision
    simp only
    split
    · split <;> rfl
    · rfl
  exact TraceGrows.trans h123 (TraceGrows.same hfin)

/-! ## The attempt as a whole -/

theorem candidate_congr (lib : Lib) (env : Env) (s t : State) (u : CString)
    (hh : t.heap = s.heap) (hm : t.m_msUsers = s.m_msUsers) (hn : t.nv = s.nv) :
    candidate lib env t u = candidate lib env s u := by
  simp [candidate, cloneOutcome, ShouldCloneUser, CloneUser, FindUser, GetNV, hh, hm, hn]

theorem provisionSucceeds_congr (lib : Lib) (env : Env) (s t : State) (u : CString)
    (hh : t.heap = s.heap) (hm : t.m_msUsers = s.m_msUsers) (hn : t.nv = s.nv) :
    provisionSucceeds lib env t u = provisionSucceeds lib env s u := by
  unfold provisionSucceeds
  rw [candidate_congr lib env s t u hh hm hn]

/-- The attempt when the gate of line 113 is closed. -/
theorem OnLoginAttempt_gate_closed (lib : Lib) (env : Env) (s : State) (u p : CString)
    (h : passesGate lib s u = false) :
    OnLoginAttempt lib env s u p = (EModRet.CONTINUE, s) := by
  unfold passesGate at h
  unfold OnLoginAttempt
  simp only
  rw [if_pos (by simpa using h)]

/-- The attempt when the account exists. -/
theorem OnLoginAttempt_existing (lib : Lib) (env : Env) (s : State) (u p : CString) (q : Nat)
    (h : FindUser s u = some q) :
    OnLoginAttempt lib env s u p =
      if (checkCredentials lib env s u p).1 then
        (EModRet.HALT, (checkCredentials lib env s u p).2.emit (Event.AcceptLogin q))
      else (EModRet.CONTINUE, (checkCredentials lib env s u p).2) := by
  unfold OnLoginAttempt
  simp only [h, Option.isNone_some, Bool.false_and, Bool.false_eq_true, if_false,
    provisionIfMissing]

/-- The attempt when the account does not exist and `CreateUser` is on. -/
theorem OnLoginAttempt_new (lib : Lib) (env : Env) (s : State) (u p : CString)
    (h : FindUser s u = none) (hc : CreateUser lib s = true) :
    OnLoginAttempt lib env s u p =
      if (checkCredentials lib env s u p).1 then
        (match (provision lib env (checkCredentials lib env s u p).2 u).1 with
          | some q => (EModRet.HALT,
              (provision lib env (checkCredentials lib env s u p).2 u).2.emit (Event.AcceptLogin q))
          | none => (EModRet.CONTINUE, (provision lib env (checkCredentials lib env s u p).2 u).2))
      else (EModRet.CONTINUE, (checkCredentials lib env s u p).2) := by
  unfold OnLoginAttempt
  simp only [h, hc, Option.isNone_none, Bool.not_true, Bool.and_false, Bool.false_eq_true,
    if_false, provisionIfMissing]

/-- The result of the attempt. -/
theorem OnLoginAttempt_fst (lib : Lib) (env : Env) (s : State) (u p : CString) :
    (OnLoginAttempt lib env s u p).1 =
      if verified lib env s u p && accountAvailable lib env s u then EModRet.HALT
      else EModRet.CONTINUE := by
  have hv : (checkCredentials lib env s u p).1 = verified lib env s u p :=
    checkCredentials_fst lib env s u p
  cases hf : FindUser s u with
  | some q =>
    rw [OnLoginAttempt_existing lib env s u p q hf, hv]
    cases verified lib env s u p <;> simp [accountAvailable, hf]
  | none =>
    cases hc : CreateUser lib s with
    | false =>
      rw [OnLoginAttempt_gate_closed lib env s u p (by simp [passesGate, hf, hc])]
      simp [accountAvailable, hf, hc]
    | true =>
      rw [OnLoginAttempt_new lib env s u p hf hc, hv]
      have hp := (provision_result lib env (checkCredentials lib env s u p).2 u).1
      rw [provisionSucceeds_congr lib env s _ u (by simp) (by simp) (by simp)] at hp
      cases verified lib env s u p with
      | false => simp
      | true =>
        rw [if_pos rfl, hp]
        cases hps : provisionSucceeds lib env s u <;> simp [accountAvailable, hf, hc, hps]

/-- The calls of an attempt, in order: nothing when the gate is closed;
otherwise the check calls, then the calls of the provisioning block (none
unless that block runs), then `AcceptLogin` exactly when the result is `HALT`. -/
theorem OnLoginAttempt_trace (lib : Lib) (env : Env) (s : State) (u p : CString) :
    ∃ evsP acc, (∀ e ∈ evsP, isProvisionEvent e)
      ∧ (provisioningRuns lib env s u p = false → evsP = [])
      ∧ ((acc = [] ∧ (OnLoginAttempt lib env s u p).1 = EModRet.CONTINUE)
        ∨ (∃ q, acc = [Event.AcceptLogin q] ∧ (OnLoginAttempt lib env s u p).1 = EModRet.HALT
            ∧ (FindUser s u).getD s.heap.length = q))
      ∧ (OnLoginAttempt lib env s u p).2.trace
          = s.trace ++ ((if passesGate lib s u then checkEvents lib env s u p else [])
              ++ evsP ++ acc) := by
  have hv : (checkCredentials lib env s u p).1 = verified lib env s u p :=
    checkCredentials_fst lib env s u p
  have hct := checkCredentials_trace lib env s u p
  cases hf : FindUser s u with
  | some q =>
    have hg : passesGate lib s u = true := by simp [passesGate, hf]
    rw [OnLoginAttempt_existing lib env s u p q hf, hg]
    refine ⟨[], ?_⟩
    split
    · exact ⟨[Event.AcceptLogin q], by simp, fun _ => rfl, Or.inr ⟨q, rfl, rfl, rfl⟩,
        by simp [hct]⟩
    · exact ⟨[], by simp, fun _ => rfl, Or.inl ⟨rfl, rfl⟩, by simp [hct]⟩
  | none =>
    cases hc : CreateUser lib s with
    | false =>
      have hg : passesGate lib s u = false := by simp [passesGate, hf, hc]
      rw [OnLoginAttempt_gate_closed lib env s u p hg, hg]
      exact ⟨[], [], by simp, fun _ => rfl, Or.inl ⟨rfl, rfl⟩, by simp⟩
    | true =>
      have hg : passesGate lib s u = true := by simp [passesGate, hf, hc]
      rw [OnLoginAttempt_new lib env s u p hf hc, hg, hv]
      cases hver : verified lib env s u p with
      | false =>
        exact ⟨[], [], by simp, fun _ => rfl, Or.inl ⟨rfl, rfl⟩, by simp [hct]⟩
      | true =>
        obtain ⟨evs, ht, hp⟩ := provision_grows lib env (checkCredentials lib env s u p).2 u
        have hrun : provisioningRuns lib env s u p = true := by
          simp [provisioningRuns, hf, hc, hver]
        refine ⟨evs, ?_⟩
        rw [if_pos rfl]
        split
        · rename_i q hq
          have hres := (provision_result lib env (checkCredentials lib env s u p).2 u).1
          rw [hq, checkCredentials_heap] at hres
          have hq2 : s.heap.length = q := by
            split at hres
            · exact (Option.some.inj hres).symm
            · cases hres
          exact ⟨[Event.AcceptLogin q], hp, by simp [hrun], Or.inr ⟨q, rfl, rfl, by simpa using hq2⟩,
            by simp [ht, hct]⟩
        · exact ⟨[], hp, by simp [hrun], Or.inl ⟨rfl, rfl⟩, by simp [ht, hct]⟩

/-- The calls an attempt adds to the trace. -/
theorem OnLoginAttempt_newEvents (lib : Lib) (env : Env) (s : State) (u p : CString) :
    ∃ evsP acc, (∀ e ∈ evsP, isProvisionEvent e)
      ∧ (provisioningRuns lib env s u p = false → evsP = [])
      ∧ ((acc = [] ∧ (OnLoginAttempt lib env s u p).1 = EModRet.CONTINUE)
        ∨ (∃ q, acc = [Event.AcceptLogin q] ∧ (OnLoginAttempt lib env s u p).1 = EModRet.HALT
            ∧ (FindUser s u).getD s.heap.length = q))
      ∧ newEvents s (OnLoginAttempt lib env s u p).2
          = (if passesGate lib s u then checkEvents lib env s u p else []) ++ evsP ++ acc := by
  obtain ⟨evsP, acc, h1, h2, h3, h4⟩ := OnLoginAttempt_trace lib env s u p
  refine ⟨evsP, acc, h1, h2, h3, ?_⟩
  unfold newEvents
  rw [h4, List.drop_left]

/-- Provisioning calls are neither backend calls nor `AcceptLogin`. -/
theorem provisionEvents_counts (evs : List Event) (h : ∀ e ∈ evs, isProvisionEvent e) :
    backendCalls evs = 0 ∧ acceptCalls evs = 0 := by
  unfold backendCalls acceptCalls
  constructor <;>
  · rw [List.countP_eq_zero]
    intro e he
    have := h e he
    cases e <;> simp_all [isProvisionEvent]

/-- Check calls never include `AcceptLogin`. -/
theorem checkEvents_acceptCalls (lib : Lib) (env : Env) (s : State) (u p : CString) :
    acceptCalls (checkEvents lib env s u p) = 0 := by
  unfold acceptCalls
  rw [List.countP_eq_zero]
  intro e he
  have := checkEvents_isCheckEvent lib env s u p e he
  cases e <;> simp_all [isCheckEvent]

theorem backendCalls_append (a b : List Event) :
    backendCalls (a ++ b) = backendCalls a + backendCalls b := by
  simp [backendCalls, List.countP_append]

theorem acceptCalls_append (a b : List Event) :
    acceptCalls (a ++ b) = acceptCalls a + acceptCalls b := by
  simp [acceptCalls, List.countP_append]

/-- The registry and the heap after an attempt. -/
theorem OnLoginAttempt_state (lib : Lib) (env : Env) (s : State) (u p : CString) :
    (provisioningRuns lib env s u p = false →
      (OnLoginAttempt lib env s u p).2.heap = s.heap
        ∧ (OnLoginAttempt lib env s u p).2.m_msUsers = s.m_msUsers)
    ∧ (provisioningRuns lib env s u p = true →
      (OnLoginAttempt lib env s u p).2.heap = (provision lib env s u).2.heap
        ∧ (OnLoginAttempt lib env s u p).2.m_msUsers = (provision lib env s u).2.m_msUsers) := by
  have hv : (checkCredentials lib env s u p).1 = verified lib env s u p :=
    checkCredentials_fst lib env s u p
  have hcand := candidate_congr lib env s (checkCredentials lib env s u p).2 u
    (by simp) (by simp) (by simp)
  have hldap : CreateFromLDAP lib (checkCredentials lib env s u p).2 = CreateFromLDAP lib s := by
    simp [CreateFromLDAP, GetNV]
  obtain ⟨_, hm, hh⟩ := provision_result lib env (checkCredentials lib env s u p).2 u
  obtain ⟨_, hm0, hh0⟩ := provision_result lib env s u
  rw [hcand, checkCredentials_m_msUsers, checkCredentials_heap] at hm
  rw [hcand, hldap, checkCredentials_heap] at hh
  rw [← hm0] at hm
  rw [← hh0] at hh
  cases hf : FindUser s u with
  | some q =>
    rw [OnLoginAttempt_existing lib env s u p q hf]
    constructor
    · intro _
      split <;> simp
    · intro h
      simp [provisioningRuns, hf] at h
  | none =>
    cases hc : CreateUser lib s with
    | false =>
      rw [OnLoginAttempt_gate_closed lib env s u p (by simp [passesGate, hf, hc])]
      constructor
      · intro _; exact ⟨rfl, rfl⟩
      · intro h
        simp [provisioningRuns, hf, hc] at h
    | true =>
      rw [OnLoginAttempt_new lib env s u p hf hc, hv]
      constructor
      · intro h
        have hver : verified lib env s u p = false := by
          simpa [provisioningRuns, hf, hc] using h
        simp [hver]
      · intro h
        have hver : verified lib env s u p = true := by
          simpa [provisioningRuns, hf, hc] using h
        rw [if_pos hver]
        split <;> simp [hm, hh]

/-! ## The `CreateFromLDAP` block -/

theorem derefHeap_forNetworkUsers (l : List Nat) (f : CUser → CUser) (hf : ∀ x, f (f x) = f x)
    (h : List (Option CUser)) (q : Nat) :
    derefHeap (forNetworkUsers h l f) q
      = if q ∈ l then (derefHeap h q).map f else derefHeap h q := by
  induction l generalizing h with
  | nil => simp [forNetworkUsers]
  | cons a l ih =>
    have hstep : forNetworkUsers h (a :: l) f = forNetworkUsers (updateHeap h a f) l f := rfl
    rw [hstep, ih, derefHeap_updateHeap]
    by_cases hqa : q = a
    · subst hqa
      by_cases hql : q ∈ l
      · cases hd : derefHeap h q <;> simp [hql, hf]
      · simp [hql]
    · by_cases hql : q ∈ l
      · simp [hqa, hql]
      · simp [hqa, hql]

/-- What the `CreateFromLDAP` block leaves on the heap: the object behind
`pUser` and the user of each of its networks get the derived fields, every
other object is as it was. -/
theorem derefHeap_deriveIdentityHeap (h : List (Option CUser)) (p : Nat) (c : CUser)
    (hp : derefHeap h p = some c) (q : Nat) :
    derefHeap (deriveIdentityHeap h p) q
      = if q = p ∨ q ∈ c.m_vIRCNetworks.map (fun n => n.m_pUser)
        then (derefHeap h q).map (CUser.withIdentity c.m_sUserName)
        else derefHeap h q := by
  have e1 := fun (h : List (Option CUser)) (q : Nat) =>
    derefHeap_forNetworkUsers (c.m_vIRCNetworks.map (fun n => n.m_pUser))
      (fun u => CUser.SetIdent c.m_sUserName (CUser.SetNick c.m_sUserName u))
      (by intro x; rfl) h q
  have e2 := fun (h : List (Option CUser)) (q : Nat) =>
    derefHeap_forNetworkUsers (c.m_vIRCNetworks.map (fun n => n.m_pUser))
      (CUser.SetAltNick (c.m_sUserName ++ "-")) (by intro x; rfl) h q
  have e3 := fun (h : List (Option CUser)) (q : Nat) =>
    derefHeap_forNetworkUsers (c.m_vIRCNetworks.map (fun n => n.m_pUser))
      (CUser.SetRealName (c.m_sUserName ++ "-" ++ "ZNC")) (by intro x; rfl) h q
  unfold deriveIdentityHeap
  simp only [hp, Option.getD_some, e1, e2, e3, derefHeap_updateHeap]
  by_cases hqp : q = p
  · subst hqp
    by_cases hql : q ∈ c.m_vIRCNetworks.map (fun n => n.m_pUser)
    · simp only [hql, if_true, hp, or_true, Option.map_some']
      rfl
    · simp only [hql, if_false, if_true, hp, or_false, Option.map_some']
      rfl
  · by_cases hql : q ∈ c.m_vIRCNetworks.map (fun n => n.m_pUser)
    · simp only [hql, hqp, if_true, if_false, or_true]
      cases derefHeap h q with
      | none => rfl
      | some x => rfl
    · simp only [hql, hqp, if_false, or_false]

/-- How often an attempt calls `AcceptLogin`: once when it returns `HALT`,
never otherwise. -/
theorem OnLoginAttempt_acceptCalls (lib : Lib) (env : Env) (s : State) (u p : CString) :
    acceptCalls (OnLoginAttempt lib env s u p).2.trace
      = acceptCalls s.trace
        + (if (OnLoginAttempt lib env s u p).1 = EModRet.HALT then 1 else 0) := by
  obtain ⟨evsP, acc, hP, _, hacc, htr⟩ := OnLoginAttempt_trace lib env s u p
  rw [htr]
  simp only [acceptCalls_append, (provisionEvents_counts evsP hP).2]
  have hchk : acceptCalls (if passesGate lib s u = true
      then checkEvents lib env s u p else []) = 0 := by
    split
    · exact checkEvents_acceptCalls lib env s u p
    · rfl
  rw [hchk]
  rcases hacc with ⟨h1, h2⟩ | ⟨q, h1, h2, _⟩
  · rw [h1, h2]; simp [acceptCalls]
  · rw [h1, h2]; simp [acceptCalls]

/-! ## The claims about `OnLoginAttempt` -/

/-- C3: for a username without an account, with `CreateUser` off, the attempt
returns `CONTINUE` and leaves the whole state as it was, whatever the password
and whatever the backend would answer: nothing is added to the heap or the
registry, the cache is unchanged, and the trace is unchanged, so neither the
cache nor the backend nor `AcceptLogin` was called. -/
theorem C3_gate_continue (lib : Lib) (env : Env) (s : State) (sUsername sPassword : CString)
    (hNone : FindUser s sUsername = none) (hOff : CreateUser lib s = false) :
    OnLoginAttempt lib env s sUsername sPassword = (EModRet.CONTINUE, s) :=
  OnLoginAttempt_gate_closed lib env s sUsername sPassword (by simp [passesGate, hNone, hOff])

/-- C3 at a concrete input: user "mallory" on a host without accounts. -/
theorem C3_gate_continue_witness :
    FindUser closedState "mallory" = none ∧ CreateUser demoLib closedState = false
      ∧ OnLoginAttempt demoLib (demoEnv 5) closedState "mallory" "right"
          = (EModRet.CONTINUE, closedState) :=
  ⟨by decide, by decide,
    C3_gate_continue demoLib (demoEnv 5) closedState "mallory" "right" (by decide) (by decide)⟩

/-- C7: the result is `HALT` exactly when the credential is verified (cache
hit, or both SASL calls return `SASL_OK`) and an account is available (it
existed, or creation is on and provisioning succeeds); otherwise it is
`CONTINUE`. `AcceptLogin` is called once when the result is `HALT` and not at
all otherwise. On a cache miss a backend that cannot be constructed and a
backend that rejects are treated alike: `CONTINUE`, cache, registry and heap
unchanged; and when `sasl_server_new` fails `sasl_checkpass` is not called. -/
theorem C7_result_characterisation (lib : Lib) (env : Env) (s : State)
    (sUsername sPassword : CString) :
    ((OnLoginAttempt lib env s sUsername sPassword).1 = EModRet.HALT ↔
        (verified lib env s sUsername sPassword = true
          ∧ accountAvailable lib env s sUsername = true))
    ∧ ((OnLoginAttempt lib env s sUsername sPassword).1 = EModRet.HALT
        ∨ (OnLoginAttempt lib env s sUsername sPassword).1 = EModRet.CONTINUE)
    ∧ acceptCalls (OnLoginAttempt lib env s sUsername sPassword).2.trace
        = acceptCalls s.trace
          + (if (OnLoginAttempt lib env s sUsername sPassword).1 = EModRet.HALT then 1 else 0)
    ∧ (s.m_Cache.HasItem env.now (sCacheKey lib sUsername sPassword) = false →
        (env.sasl_server_new ≠ SASL_OK ∨ env.sasl_checkpass sUsername sPassword ≠ SASL_OK) →
        (OnLoginAttempt lib env s sUsername sPassword).1 = EModRet.CONTINUE
          ∧ (OnLoginAttempt lib env s sUsername sPassword).2.m_Cache = s.m_Cache
          ∧ (OnLoginAttempt lib env s sUsername sPassword).2.m_msUsers = s.m_msUsers
          ∧ (OnLoginAttempt lib env s sUsername sPassword).2.heap = s.heap)
    ∧ (env.sasl_server_new ≠ SASL_OK →
        ∀ a b, Event.sasl_checkpass a b ∉
          newEvents s (OnLoginAttempt lib env s sUsername sPassword).2) := by
  have hfst := OnLoginAttempt_fst lib env s sUsername sPassword
  refine ⟨?_, ?_, ?_, ?_, ?_⟩
  · rw [hfst]
    cases verified lib env s sUsername sPassword <;>
      cases accountAvailable lib env s sUsername <;> simp
  · rw [hfst]
    split
    · exact Or.inl rfl
    · exact Or.inr rfl
  · exact OnLoginAttempt_acceptCalls lib env s sUsername sPassword
  · intro hmiss hbad
    have hver : verified lib env s sUsername sPassword = false := by
      unfold verified
      rw [hmiss]
      rcases hbad with h | h <;> simp [h]
    refine ⟨by rw [hfst]; simp [hver], ?_, ?_⟩
    · rw [OnLoginAttempt_m_Cache]
      have : backendVerifies lib env s sUsername sPassword = false := by
        unfold backendVerifies
        rcases hbad with h | h <;> simp [h]
      simp [this]
    · have := (OnLoginAttempt_state lib env s sUsername sPassword).1
        (by simp [provisioningRuns, hver])
      exact ⟨this.2, this.1⟩
  · intro hdown a b hmem
    obtain ⟨evsP, acc, hP, _, hacc, hnew⟩ :=
      OnLoginAttempt_newEvents lib env s sUsername sPassword
    rw [hnew] at hmem
    rcases List.mem_append.mp hmem with h | h
    · rcases List.mem_append.mp h with h | h
      · split at h
        · unfold checkEvents at h
          simp [hdown] at h
          split at h <;> simp at h
        · simp at h
      · have := hP _ h
        simp [isProvisionEvent] at this
    · rcases hacc with ⟨h1, _⟩ | ⟨q, h1, _, _⟩ <;> simp [h1] at h

/-- C7 at a concrete input: the backend cannot be constructed for "alice". -/
theorem C7_result_characterisation_witness :
    ldapState.m_Cache.HasItem (downEnv 5).now (sCacheKey demoLib "alice" "pw") = false
      ∧ (downEnv 5).sasl_server_new ≠ SASL_OK
      ∧ (OnLoginAttempt demoLib (downEnv 5) ldapState "alice" "pw").1 = EModRet.CONTINUE
      ∧ (OnLoginAttempt demoLib (downEnv 5) ldapState "alice" "pw").2.m_Cache = ldapState.m_Cache
      ∧ (OnLoginAttempt demoLib (downEnv 5) ldapState "alice" "pw").2.m_msUsers
          = ldapState.m_msUsers
      ∧ (OnLoginAttempt demoLib (downEnv 5) ldapState "alice" "pw").2.heap = ldapState.heap :=
  ⟨by decide, by decide,
    (C7_result_characterisation demoLib (downEnv 5) ldapState "alice" "pw").2.2.2.1
      (by decide) (Or.inl (by decide))⟩

theorem lookup_self (k : CString) (v : Nat) (l : List (CString × Nat)) :
    List.lookup k ((k, v) :: l) = some v := by
  simp [List.lookup]

/-- C4: for a username without an account, with `CreateUser` on, no
`CloneUser`, `CreateFromLDAP` on, a verified credential and `AddUser`
succeeding, the attempt returns `HALT`, calls `AcceptLogin` on the new object,
and the registry maps the username to that object, whose nick and ident are
the username, whose alt nick is the username followed by "-", and whose real
name is the username followed by "-ZNC"; the user of each network the object
had before any field was set carries the same four values. -/
theorem C4_identity_derivation (lib : Lib) (env : Env) (s : State)
    (sUsername sPassword : CString)
    (hNone : FindUser s sUsername = none) (hCreate : CreateUser lib s = true)
    (hNoClone : ShouldCloneUser s = false) (hLDAP : CreateFromLDAP lib s = true)
    (hVer : verified lib env s sUsername sPassword = true)
    (hAdd : env.AddUser (CUser.SetPass "::" eHashType.HASH_MD5 "::" (CUser.new lib sUsername))
      = true) :
    (OnLoginAttempt lib env s sUsername sPassword).1 = EModRet.HALT
    ∧ FindUser (OnLoginAttempt lib env s sUsername sPassword).2 sUsername = some s.heap.length
    ∧ (∃ usr, (OnLoginAttempt lib env s sUsername sPassword).2.deref s.heap.length = some usr
        ∧ usr.m_sUserName = sUsername ∧ usr.m_sNick = sUsername ∧ usr.m_sIdent = sUsername
        ∧ usr.m_sAltNick = sUsername ++ "-" ∧ usr.m_sRealName = sUsername ++ "-ZNC"
        ∧ usr.m_vIRCNetworks = (CUser.new lib sUsername).m_vIRCNetworks)
    ∧ (∀ n ∈ (CUser.new lib sUsername).m_vIRCNetworks, ∀ x,
        (OnLoginAttempt lib env s sUsername sPassword).2.deref n.m_pUser = some x →
        x.m_sNick = sUsername ∧ x.m_sIdent = sUsername
          ∧ x.m_sAltNick = sUsername ++ "-" ∧ x.m_sRealName = sUsername ++ "-ZNC")
    ∧ (∀ n ∈ (CUser.new lib sUsername).m_vIRCNetworks,
        (s.deref n.m_pUser).isSome = true →
        ((OnLoginAttempt lib env s sUsername sPassword).2.deref n.m_pUser).isSome = true)
    ∧ Event.AcceptLogin s.heap.length
        ∈ newEvents s (OnLoginAttempt lib env s sUsername sPassword).2 := by
  have hsuffix : ∀ t : CString, t ++ "-" ++ "ZNC" = t ++ "-ZNC" := by
    intro t
    rw [String.append_assoc]
    rfl
  have hcand : candidate lib env s sUsername
      = some (CUser.SetPass "::" eHashType.HASH_MD5 "::" (CUser.new lib sUsername)) := by
    simp [candidate, cloneOutcome, hNoClone]
  have hsucc : provisionSucceeds lib env s sUsername = true := by
    simp [provisionSucceeds, hcand, hAdd]
  have hrun : provisioningRuns lib env s sUsername sPassword = true := by
    simp [provisioningRuns, hNone, hCreate, hVer]
  have hhalt : (OnLoginAttempt lib env s sUsername sPassword).1 = EModRet.HALT := by
    rw [OnLoginAttempt_fst]
    simp [hVer, accountAvailable, hCreate, hsucc]
  obtain ⟨hheap, husers⟩ := (OnLoginAttempt_state lib env s sUsername sPassword).2 hrun
  obtain ⟨_, hm, hh⟩ := provision_result lib env s sUsername
  rw [hcand] at hm hh
  simp only [hAdd, if_true, hLDAP] at hm hh
  rw [hm] at husers
  rw [hh] at hheap
  have hderef := derefHeap_deriveIdentityHeap
    (s.heap ++ [some (CUser.SetPass "::" eHashType.HASH_MD5 "::" (CUser.new lib sUsername))])
    s.heap.length (CUser.SetPass "::" eHashType.HASH_MD5 "::" (CUser.new lib sUsername))
    (derefHeap_concat _ _)
  refine ⟨hhalt, ?_, ?_, ?_, ?_, ?_⟩
  · unfold FindUser
    rw [husers]
    exact lookup_self _ _ _
  · refine ⟨CUser.withIdentity sUsername
      (CUser.SetPass "::" eHashType.HASH_MD5 "::" (CUser.new lib sUsername)), ?_, rfl, rfl, rfl,
      rfl, hsuffix _, rfl⟩
    unfold State.deref
    rw [hheap, hderef]
    simp [derefHeap_concat]
    rfl
  · intro n hn x hx
    unfold State.deref at hx
    rw [hheap, hderef] at hx
    have hmem : n.m_pUser ∈ List.map (fun n => n.m_pUser)
        (CUser.SetPass "::" eHashType.HASH_MD5 "::" (CUser.new lib sUsername)).m_vIRCNetworks :=
      List.mem_map.mpr ⟨n, hn, rfl⟩
    rw [if_pos (Or.inr hmem)] at hx
    cases hd : derefHeap (s.heap ++ [some (CUser.SetPass "::" eHashType.HASH_MD5 "::"
        (CUser.new lib sUsername))]) n.m_pUser with
    | none => rw [hd] at hx; cases hx
    | some y =>
      rw [hd] at hx
      have hxy : x = CUser.withIdentity sUsername y := (Option.some.inj hx).symm
      subst hxy
      exact ⟨rfl, rfl, rfl, hsuffix _⟩
  · intro n hn hsome
    unfold State.deref at hsome ⊢
    rw [hheap, hderef]
    have hmem : n.m_pUser ∈ List.map (fun n => n.m_pUser)
        (CUser.SetPass "::" eHashType.HASH_MD5 "::" (CUser.new lib sUsername)).m_vIRCNetworks :=
      List.mem_map.mpr ⟨n, hn, rfl⟩
    rw [if_pos (Or.inr hmem)]
    have hlt : n.m_pUser < s.heap.length := by
      unfold derefHeap at hsome
      by_contra hge
      rw [List.getElem?_eq_none (by omega)] at hsome
      simp at hsome
    rw [derefHeap_append_left _ _ _ hlt]
    cases hd : derefHeap s.heap n.m_pUser with
    | none => rw [hd] at hsome; simp at hsome
    | some y => simp
  · obtain ⟨evsP, acc, _, _, hacc, hnew⟩ :=
      OnLoginAttempt_newEvents lib env s sUsername sPassword
    rw [hnew]
    rcases hacc with ⟨_, h2⟩ | ⟨q, h1, _, h3⟩
    · rw [hhalt] at h2; cases h2
    · rw [hNone] at h3
      simp only [Option.getD_none] at h3
      subst h3
      simp [h1]

/-- C4 at a concrete input: "alice" on an empty host gives the account
"alice" with "alice", "alice", "alice-", "alice-ZNC", also seen through its
network. -/
theorem C4_identity_derivation_witness :
    (OnLoginAttempt subIdLib (demoEnv 5) ldapState "alice" "pw").1 = EModRet.HALT
      ∧ FindUser (OnLoginAttempt subIdLib (demoEnv 5) ldapState "alice" "pw").2 "alice" = some 0
      ∧ (∃ usr, (OnLoginAttempt subIdLib (demoEnv 5) ldapState "alice" "pw").2.deref 0 = some usr
          ∧ usr.m_sUserName = "alice" ∧ usr.m_sNick = "alice" ∧ usr.m_sIdent = "alice"
          ∧ usr.m_sAltNick = "alice-" ∧ usr.m_sRealName = "alice-ZNC"
          ∧ usr.m_vIRCNetworks = [⟨"net", 0⟩])
      ∧ (∀ n ∈ [(⟨"net", 0⟩ : CIRCNetwork)], ∀ x,
          (OnLoginAttempt subIdLib (demoEnv 5) ldapState "alice" "pw").2.deref n.m_pUser = some x →
          x.m_sNick = "alice" ∧ x.m_sIdent = "alice"
            ∧ x.m_sAltNick = "alice-" ∧ x.m_sRealName = "alice-ZNC") :=
  have h := C4_identity_derivation subIdLib (demoEnv 5) ldapState "alice" "pw"
    (by decide) (by decide) (by decide) (by decide) (by decide) (by decide)
  ⟨h.1, h.2.1, h.2.2.1, h.2.2.2.1⟩

theorem provision_template_missing (lib : Lib) (env : Env) (s : State) (u : CString)
    (h : templateMissing s = true) :
    provision lib env s u = (none, (allocated lib s u).delete s.heap.length) := by
  have hS : ShouldCloneUser (allocated lib s u) = true := by
    have : ShouldCloneUser (allocated lib s u) = ShouldCloneUser s := rfl
    rw [this]
    simp [templateMissing] at h
    exact h.1
  have hF : FindUser (allocated lib s u) (CloneUser (allocated lib s u)) = none := by
    have : FindUser (allocated lib s u) (CloneUser (allocated lib s u))
        = FindUser s (CloneUser s) := rfl
    rw [this]
    simp [templateMissing] at h
    exact h.2
  have hc := (cloneStep_cases env (allocated lib s u) s.heap.length).2.1 hS hF
  have hprov : provision lib env s u =
      (match (addUserStep env (setPassStep (cloneStep env (allocated lib s u) s.heap.length).2
            (cloneStep env (allocated lib s u) s.heap.length).1)
            (cloneStep env (allocated lib s u) s.heap.length).1).1 with
        | some q =>
          if CreateFromLDAP lib (addUserStep env (setPassStep
              (cloneStep env (allocated lib s u) s.heap.length).2
              (cloneStep env (allocated lib s u) s.heap.length).1)
              (cloneStep env (allocated lib s u) s.heap.length).1).2
          then (some q, deriveIdentity (addUserStep env (setPassStep
              (cloneStep env (allocated lib s u) s.heap.length).2
              (cloneStep env (allocated lib s u) s.heap.length).1)
              (cloneStep env (allocated lib s u) s.heap.length).1).2 q)
          else (some q, (addUserStep env (setPassStep
              (cloneStep env (allocated lib s u) s.heap.length).2
              (cloneStep env (allocated lib s u) s.heap.length).1)
              (cloneStep env (allocated lib s u) s.heap.length).1).2)
        | none => (none, (addUserStep env (setPassStep
              (cloneStep env (allocated lib s u) s.heap.length).2
              (cloneStep env (allocated lib s u) s.heap.length).1)
              (cloneStep env (allocated lib s u) s.heap.length).1).2)) := rfl
  rw [hprov, hc]
  rfl

/-- Each of the three failures makes provisioning fail. -/
theorem provisionSucceeds_of_failure (lib : Lib) (env : Env) (s : State) (u : CString)
    (h : templateMissing s = true ∨ cloneFails lib env s u = true
      ∨ addUserFails lib env s u = true) :
    provisionSucceeds lib env s u = false := by
  rcases h with h | h | h
  · simp only [templateMissing, Bool.and_eq_true, Option.isNone_iff_eq_none] at h
    simp [provisionSucceeds, candidate, cloneOutcome, h.1, h.2]
  · simp only [cloneFails, Bool.and_eq_true, Option.isNone_iff_eq_none] at h
    simp [provisionSucceeds, candidate, h.2]
  · unfold addUserFails at h
    unfold provisionSucceeds
    cases hc : candidate lib env s u with
    | none => rfl
    | some c =>
      rw [hc] at h
      simpa using h

/-- When provisioning fails the block returns a null `pUser`, with the
registry as it was and the one new heap cell freed again. -/
theorem provision_failure (lib : Lib) (env : Env) (s : State) (u : CString)
    (h : provisionSucceeds lib env s u = false) :
    (provision lib env s u).2.m_msUsers = s.m_msUsers
      ∧ (provision lib env s u).2.heap = s.heap ++ [none] := by
  obtain ⟨_, hm, hh⟩ := provision_result lib env s u
  unfold provisionSucceeds at h
  cases hc : candidate lib env s u with
  | none =>
    rw [hc] at hm hh
    exact ⟨hm, hh⟩
  | some c =>
    rw [hc] at hm hh h
    simp only at h
    simp only [h, Bool.false_eq_true, if_false] at hm hh
    exact ⟨hm, hh⟩

/-- C5: on a verified attempt for a username without an account, with
`CreateUser` on, if the clone template has no account, or `Clone` reports
failure, or `AddUser` reports failure, then the result is `CONTINUE`, the
registry is unchanged and has no account of that name, every object that was
on the heap is unchanged and the one cell allocated for the new object is
freed again (so no derived identity is left anywhere), and `AcceptLogin` is
not called; when the template has no account, `Clone` is not called. -/
theorem C5_provisioning_atomic (lib : Lib) (env : Env) (s : State)
    (sUsername sPassword : CString)
    (hNone : FindUser s sUsername = none) (hCreate : CreateUser lib s = true)
    (hVer : verified lib env s sUsername sPassword = true)
    (hFail : templateMissing s = true ∨ cloneFails lib env s sUsername = true
      ∨ addUserFails lib env s sUsername = true) :
    (OnLoginAttempt lib env s sUsername sPassword).1 = EModRet.CONTINUE
    ∧ (OnLoginAttempt lib env s sUsername sPassword).2.m_msUsers = s.m_msUsers
    ∧ FindUser (OnLoginAttempt lib env s sUsername sPassword).2 sUsername = none
    ∧ (OnLoginAttempt lib env s sUsername sPassword).2.heap = s.heap ++ [none]
    ∧ acceptCalls (OnLoginAttempt lib env s sUsername sPassword).2.trace = acceptCalls s.trace
    ∧ (templateMissing s = true → ∀ a b, Event.Clone a b ∉
        newEvents s (OnLoginAttempt lib env s sUsername sPassword).2) := by
  have hfail := provisionSucceeds_of_failure lib env s sUsername hFail
  have hrun : provisioningRuns lib env s sUsername sPassword = true := by
    simp [provisioningRuns, hNone, hCreate, hVer]
  have hcont : (OnLoginAttempt lib env s sUsername sPassword).1 = EModRet.CONTINUE := by
    rw [OnLoginAttempt_fst]
    simp [accountAvailable, hNone, hfail]
  obtain ⟨hheap, husers⟩ := (OnLoginAttempt_state lib env s sUsername sPassword).2 hrun
  obtain ⟨hm, hh⟩ := provision_failure lib env s sUsername hfail
  rw [hm] at husers
  rw [hh] at hheap
  refine ⟨hcont, husers, ?_, hheap, ?_, ?_⟩
  · unfold FindUser at hNone ⊢
    rw [husers]
    exact hNone
  · have := (OnLoginAttempt_acceptCalls lib env s sUsername sPassword)
    rw [this, hcont]
    simp
  · intro hmiss a b hmem
    have hcc : (checkCredentials lib env s sUsername sPassword).1 = true := by
      rw [checkCredentials_fst]; exact hVer
    have htm : templateMissing (checkCredentials lib env s sUsername sPassword).2 = true := by
      simpa [templateMissing, ShouldCloneUser, CloneUser, FindUser, GetNV] using hmiss
    have hprov := provision_template_missing lib env
      (checkCredentials lib env s sUsername sPassword).2 sUsername htm
    have htrace : (OnLoginAttempt lib env s sUsername sPassword).2.trace
        = s.trace ++ (checkEvents lib env s sUsername sPassword
            ++ [Event.new_CUser s.heap.length, Event.delete s.heap.length]) := by
      rw [OnLoginAttempt_new lib env s sUsername sPassword hNone hCreate, if_pos hcc, hprov]
      simp [allocated, checkCredentials_trace]
    unfold newEvents at hmem
    rw [htrace, List.drop_left] at hmem
    rcases List.mem_append.mp hmem with h | h
    · exact checkEvents_isCheckEvent lib env s sUsername sPassword _ h
    · simp at h

/-- C5 at a concrete input: `CloneUser` is "template", no account "template"
exists, and "bob" logs in with a credential the backend accepts. -/
theorem C5_provisioning_atomic_witness :
    templateMissing cloneState = true
      ∧ (OnLoginAttempt demoLib (demoEnv 5) cloneState "bob" "pw").1 = EModRet.CONTINUE
      ∧ (OnLoginAttempt demoLib (demoEnv 5) cloneState "bob" "pw").2.m_msUsers
          = cloneState.m_msUsers
      ∧ FindUser (OnLoginAttempt demoLib (demoEnv 5) cloneState "bob" "pw").2 "bob" = none :=
  have h := C5_provisioning_atomic demoLib (demoEnv 5) cloneState "bob" "pw"
    (by decide) (by decide) (by decide) (Or.inl (by decide))
  ⟨by decide, h.1, h.2.1, h.2.2.1⟩

theorem countP_of_lookup_none (k : CString) (l : List (CString × Nat))
    (h : List.lookup k l = none) : l.countP (fun e => e.1 == k) = 0 := by
  induction l with
  | nil => rfl
  | cons a l ih =>
    obtain ⟨a1, a2⟩ := a
    rw [List.lookup_cons] at h
    cases hk : (k == a1) with
    | true => rw [hk] at h; cases h
    | false =>
      rw [hk] at h
      have hne : ¬ a1 = k := by
        intro e
        subst e
        simp at hk
      simp [List.countP_cons, ih h, hne]

/-- The object handed to `AddUser` has the login name, as long as `Clone`
keeps the name of its target. -/
theorem candidate_name (lib : Lib) (env : Env) (s : State) (u : CString) (c : CUser)
    (hClone : ∀ a b r, env.Clone a b = some r → r.m_sUserName = a.m_sUserName)
    (h : candidate lib env s u = some c) : c.m_sUserName = u := by
  unfold candidate at h
  cases ho : cloneOutcome lib env s u with
  | none => rw [ho] at h; cases h
  | some r =>
    rw [ho] at h
    simp only [Option.map_some', Option.some.injEq] at h
    subst h
    have hr : r.m_sUserName = u := by
      unfold cloneOutcome at ho
      split at ho
      · split at ho
        · cases ho
        · exact hClone _ _ _ ho
      · cases ho
        rfl
    exact hr

/-- C8: an attempt for a username that has an account leaves the heap and the
registry exactly as they were, and every call it makes is a check call or the
one `AcceptLogin` on the account found, so nothing is constructed, cloned,
given a password or registered, whatever the settings. Hence two attempts in
sequence for a username that had no account, the first of which provisions it
(with `Clone` keeping the name of its target): after the first the registry
maps the name to the new object and has one entry of that name; the second
finds that object, changes neither heap nor registry, and when its credential
is verified returns `HALT` with `AcceptLogin` on that same object. -/
theorem C8_existing_account_untouched (lib : Lib) (env1 env2 : Env) (s : State)
    (sUsername sPassword1 sPassword2 : CString) :
    (∀ q, FindUser s sUsername = some q →
      (OnLoginAttempt lib env1 s sUsername sPassword1).2.heap = s.heap
      ∧ (OnLoginAttempt lib env1 s sUsername sPassword1).2.m_msUsers = s.m_msUsers
      ∧ (∀ e ∈ newEvents s (OnLoginAttempt lib env1 s sUsername sPassword1).2,
          isCheckEvent e ∨ e = Event.AcceptLogin q))
    ∧ (FindUser s sUsername = none →
      (OnLoginAttempt lib env1 s sUsername sPassword1).1 = EModRet.HALT →
      (∀ a b r, env1.Clone a b = some r → r.m_sUserName = a.m_sUserName) →
      FindUser (OnLoginAttempt lib env1 s sUsername sPassword1).2 sUsername = some s.heap.length
      ∧ accountsNamed (OnLoginAttempt lib env1 s sUsername sPassword1).2 sUsername = 1
      ∧ (OnLoginAttempt lib env2 (OnLoginAttempt lib env1 s sUsername sPassword1).2
            sUsername sPassword2).2.heap
          = (OnLoginAttempt lib env1 s sUsername sPassword1).2.heap
      ∧ (OnLoginAttempt lib env2 (OnLoginAttempt lib env1 s sUsername sPassword1).2
            sUsername sPassword2).2.m_msUsers
          = (OnLoginAttempt lib env1 s sUsername sPassword1).2.m_msUsers
      ∧ (verified lib env2 (OnLoginAttempt lib env1 s sUsername sPassword1).2
            sUsername sPassword2 = true →
          (OnLoginAttempt lib env2 (OnLoginAttempt lib env1 s sUsername sPassword1).2
              sUsername sPassword2).1 = EModRet.HALT
          ∧ Event.AcceptLogin s.heap.length ∈
              newEvents (OnLoginAttempt lib env1 s sUsername sPassword1).2
                (OnLoginAttempt lib env2 (OnLoginAttempt lib env1 s sUsername sPassword1).2
                  sUsername sPassword2).2)) := by
  have hexist : ∀ (env : Env) (t : State) (pw : CString) (q : Nat), FindUser t sUsername = some q →
      (OnLoginAttempt lib env t sUsername pw).2.heap = t.heap
      ∧ (OnLoginAttempt lib env t sUsername pw).2.m_msUsers = t.m_msUsers
      ∧ (∀ e ∈ newEvents t (OnLoginAttempt lib env t sUsername pw).2,
          isCheckEvent e ∨ e = Event.AcceptLogin q) := by
    intro env t pw q hq
    have hrun : provisioningRuns lib env t sUsername pw = false := by
      simp [provisioningRuns, hq]
    obtain ⟨hh, hm⟩ := (OnLoginAttempt_state lib env t sUsername pw).1 hrun
    refine ⟨hh, hm, ?_⟩
    obtain ⟨evsP, acc, _, hnil, hacc, hnew⟩ := OnLoginAttempt_newEvents lib env t sUsername pw
    rw [hnew, hnil hrun]
    intro e he
    simp only [List.append_nil] at he
    rcases List.mem_append.mp he with h | h
    · split at h
      · exact Or.inl (checkEvents_isCheckEvent lib env t sUsername pw e h)
      · cases h
    · rcases hacc with ⟨h1, _⟩ | ⟨q2, h1, _, h3⟩
      · rw [h1] at h; cases h
      · rw [hq] at h3
        simp only [Option.getD_some] at h3
        subst h3
        rw [h1] at h
        exact Or.inr (by simpa using h)
  refine ⟨hexist env1 s sPassword1, ?_⟩
  intro hNone hHalt hClone
  have hfst := OnLoginAttempt_fst lib env1 s sUsername sPassword1
  rw [hHalt] at hfst
  have hboth : verified lib env1 s sUsername sPassword1 = true
      ∧ accountAvailable lib env1 s sUsername = true := by
    by_contra hcon
    rw [if_neg (by simpa using hcon)] at hfst
    cases hfst
  have havail := hboth.2
  simp only [accountAvailable, hNone, Option.isSome_none, Bool.false_or,
    Bool.and_eq_true] at havail
  have hrun : provisioningRuns lib env1 s sUsername sPassword1 = true := by
    simp [provisioningRuns, hNone, havail.1, hboth.1]
  obtain ⟨_, husers⟩ := (OnLoginAttempt_state lib env1 s sUsername sPassword1).2 hrun
  obtain ⟨_, hm, _⟩ := provision_result lib env1 s sUsername
  have hsucc := havail.2
  unfold provisionSucceeds at hsucc
  cases hc : candidate lib env1 s sUsername with
  | none => rw [hc] at hsucc; cases hsucc
  | some c =>
    rw [hc] at hsucc hm
    simp only at hsucc
    simp only [hsucc, if_true] at hm
    rw [candidate_name lib env1 s sUsername c hClone hc] at hm
    rw [hm] at husers
    have hfind : FindUser (OnLoginAttempt lib env1 s sUsername sPassword1).2 sUsername
        = some s.heap.length := by
      unfold FindUser
      rw [husers]
      exact lookup_self _ _ _
    obtain ⟨hh2, hm2, _⟩ := hexist env2 (OnLoginAttempt lib env1 s sUsername sPassword1).2
      sPassword2 s.heap.length hfind
    refine ⟨hfind, ?_, hh2, hm2, ?_⟩
    · unfold accountsNamed
      rw [husers]
      have h0 := countP_of_lookup_none sUsername s.m_msUsers hNone
      simp [List.countP_cons, h0]
    · intro hver2
      have hhalt2 : (OnLoginAttempt lib env2 (OnLoginAttempt lib env1 s sUsername sPassword1).2
          sUsername sPassword2).1 = EModRet.HALT := by
        rw [OnLoginAttempt_fst]
        simp [hver2, accountAvailable, hfind]
      refine ⟨hhalt2, ?_⟩
      obtain ⟨evsP, acc, _, _, hacc, hnew⟩ := OnLoginAttempt_newEvents lib env2
        (OnLoginAttempt lib env1 s sUsername sPassword1).2 sUsername sPassword2
      rw [hnew]
      rcases hacc with ⟨_, h2⟩ | ⟨q, h1, _, h3⟩
      · rw [hhalt2] at h2; cases h2
      · rw [hfind] at h3
        simp only [Option.getD_some] at h3
        subst h3
        simp [h1]

theorem demoEnv_Clone_name (now : Nat) (a b r : CUser) (h : (demoEnv now).Clone a b = some r) :
    r.m_sUserName = a.m_sUserName := by
  simp only [demoEnv, Option.some.injEq] at h
  subst h
  rfl

/-- C8 at concrete inputs: "carol" logs in twice on a host with every setting
on; and the existing account "template" logs in. -/
theorem C8_existing_account_untouched_witness :
    (FindUser fullState "carol" = none
      ∧ (OnLoginAttempt demoLib (demoEnv 5) fullState "carol" "pw").1 = EModRet.HALT
      ∧ FindUser (OnLoginAttempt demoLib (demoEnv 5) fullState "carol" "pw").2 "carol" = some 1
      ∧ accountsNamed (OnLoginAttempt demoLib (demoEnv 5) fullState "carol" "pw").2 "carol" = 1
      ∧ (OnLoginAttempt demoLib (demoEnv 9)
            (OnLoginAttempt demoLib (demoEnv 5) fullState "carol" "pw").2 "carol" "pw").2.heap
          = (OnLoginAttempt demoLib (demoEnv 5) fullState "carol" "pw").2.heap)
    ∧ (FindUser fullState "template" = some 0
      ∧ (OnLoginAttempt demoLib (demoEnv 5) fullState "template" "pw").2.heap = fullState.heap
      ∧ (OnLoginAttempt demoLib (demoEnv 5) fullState "template" "pw").2.m_msUsers
          = fullState.m_msUsers) :=
  have h2 := (C8_existing_account_untouched demoLib (demoEnv 5) (demoEnv 9) fullState
    "carol" "pw" "pw").2 (by decide) (by decide) (demoEnv_Clone_name 5)
  have h1 := (C8_existing_account_untouched demoLib (demoEnv 5) (demoEnv 9) fullState
    "template" "pw" "pw").1 0 (by decide)
  ⟨⟨by decide, by decide, h2.1, h2.2.1, h2.2.2.1⟩, ⟨by decide, h1.1, h1.2.1⟩⟩

/-- C10: whatever `AddUser` is handed during an attempt has, at that moment,
the password "::" with hash type MD5 and salt "::", also when the object was
cloned from a template; when the attempt provisions an account and returns
`HALT`, the registered object still has these three values; and "::" is not
an MD5 digest, that is, no string of 32 hexadecimal digits equals it. -/
theorem C10_sentinel_password (lib : Lib) (env : Env) (s : State)
    (sUsername sPassword : CString) :
    (∀ q usr, Event.AddUser q usr ∈ newEvents s (OnLoginAttempt lib env s sUsername sPassword).2 →
      usr.m_sPass = "::" ∧ usr.m_eHashType = eHashType.HASH_MD5 ∧ usr.m_sPassSalt = "::")
    ∧ (FindUser s sUsername = none →
        (OnLoginAttempt lib env s sUsername sPassword).1 = EModRet.HALT →
        ∃ usr, (OnLoginAttempt lib env s sUsername sPassword).2.deref s.heap.length = some usr
          ∧ usr.m_sPass = "::" ∧ usr.m_eHashType = eHashType.HASH_MD5 ∧ usr.m_sPassSalt = "::")
    ∧ (∀ d : CString, isMD5Digest d = true → d ≠ "::") := by
  refine ⟨?_, ?_, ?_⟩
  · intro q usr hmem
    obtain ⟨evsP, acc, hP, _, hacc, hnew⟩ :=
      OnLoginAttempt_newEvents lib env s sUsername sPassword
    rw [hnew] at hmem
    rcases List.mem_append.mp hmem with h | h
    · rcases List.mem_append.mp h with h | h
      · split at h
        · exact (checkEvents_isCheckEvent lib env s sUsername sPassword _ h).elim
        · cases h
      · exact hP _ h
    · rcases hacc with ⟨h1, _⟩ | ⟨q2, h1, _, _⟩ <;> simp [h1] at h
  · intro hNone hHalt
    have hfst := OnLoginAttempt_fst lib env s sUsername sPassword
    rw [hHalt] at hfst
    have hboth : verified lib env s sUsername sPassword = true
        ∧ accountAvailable lib env s sUsername = true := by
      by_contra hcon
      rw [if_neg (by simpa using hcon)] at hfst
      cases hfst
    have havail := hboth.2
    simp only [accountAvailable, hNone, Option.isSome_none, Bool.false_or,
      Bool.and_eq_true] at havail
    have hrun : provisioningRuns lib env s sUsername sPassword = true := by
      simp [provisioningRuns, hNone, havail.1, hboth.1]
    obtain ⟨hheap, _⟩ := (OnLoginAttempt_state lib env s sUsername sPassword).2 hrun
    obtain ⟨_, _, hh⟩ := provision_result lib env s sUsername
    have hsucc := havail.2
    unfold provisionSucceeds at hsucc
    cases hc : candidate lib env s sUsername with
    | none => rw [hc] at hsucc; cases hsucc
    | some c =>
      rw [hc] at hsucc hh
      simp only at hsucc
      simp only [hsucc, if_true] at hh
      have hsent : c.m_sPass = "::" ∧ c.m_eHashType = eHashType.HASH_MD5
          ∧ c.m_sPassSalt = "::" := by
        unfold candidate at hc
        cases ho : cloneOutcome lib env s sUsername with
        | none => rw [ho] at hc; cases hc
        | some r =>
          rw [ho] at hc
          simp only [Option.map_some', Option.some.injEq] at hc
          subst hc
          exact ⟨rfl, rfl, rfl⟩
      unfold State.deref
      rw [hheap, hh]
      split
      · rw [derefHeap_deriveIdentityHeap _ _ c (derefHeap_concat _ _)]
        simp only [true_or, if_true, derefHeap_concat, Option.map_some']
        exact ⟨_, rfl, hsent⟩
      · rw [derefHeap_concat]
        exact ⟨_, rfl, hsent⟩
  · intro d hd heq
    subst heq
    revert hd
    decide

/-- C10 at a concrete input: "carol" is provisioned from the template, whose
own password does not reach her account; and the digest of the empty string
is not the sentinel. -/
theorem C10_sentinel_password_witness :
    (∃ usr, (OnLoginAttempt demoLib (demoEnv 5) fullState "carol" "pw").2.deref 1 = some usr
        ∧ usr.m_sPass = "::" ∧ usr.m_eHashType = eHashType.HASH_MD5 ∧ usr.m_sPassSalt = "::")
      ∧ "d41d8cd98f00b204e9800998ecf8427e" ≠ "::" :=
  have h := C10_sentinel_password demoLib (demoEnv 5) fullState "carol" "pw"
  ⟨h.2.1 (by decide) (by decide), h.2.2 "d41d8cd98f00b204e9800998ecf8427e" (by decide)⟩

/-! ## The credential cache over a run -/

theorem HasItem_eq_true_iff (c : TCacheMap) (now : Nat) (k : CString) :
    c.HasItem now k = true ↔ ∃ τ, (k, τ) ∈ c.m_mItems ∧ now - τ < c.m_uTTL := by
  unfold TCacheMap.HasItem
  rw [List.any_eq_true]
  constructor
  · rintro ⟨⟨k2, τ⟩, hmem, hk⟩
    simp only [Bool.and_eq_true, beq_iff_eq, decide_eq_true_eq] at hk
    obtain ⟨h1, h2⟩ := hk
    subst h1
    exact ⟨τ, hmem, h2⟩
  · rintro ⟨τ, hmem, hlt⟩
    exact ⟨(k, τ), hmem, by simp [hlt]⟩

theorem mem_AddItem (c : TCacheMap) (now : Nat) (k : CString) (e : CString × Nat) :
    e ∈ (c.AddItem now k).m_mItems ↔ e = (k, now) ∨ (e ∈ c.m_mItems ∧ e.1 ≠ k) := by
  unfold TCacheMap.AddItem
  simp [List.mem_filter]

@[simp]
theorem AddItem_m_uTTL (c : TCacheMap) (now : Nat) (k : CString) :
    (c.AddItem now k).m_uTTL = c.m_uTTL := rfl

/-- The cache after one step. -/
theorem step_m_Cache (lib : Lib) (s : State) (st : Step) :
    (step lib s st).m_Cache =
      match st with
      | Step.login env u p =>
        if backendVerifies lib env s u p = true
        then s.m_Cache.AddItem env.now (sCacheKey lib u p) else s.m_Cache
      | Step.host _ _ _ => s.m_Cache := by
  cases st with
  | login env u p => exact OnLoginAttempt_m_Cache lib env s u p
  | host h m n => rfl

theorem step_m_uTTL (lib : Lib) (s : State) (st : Step) :
    (step lib s st).m_Cache.m_uTTL = s.m_Cache.m_uTTL := by
  rw [step_m_Cache]
  cases st with
  | login env u p =>
    simp only
    split <;> rfl
  | host h m n => rfl

/-- The time to live is never changed by a run. -/
theorem run_m_uTTL (lib : Lib) (steps : List Step) (s : State) :
    (run lib s steps).m_Cache.m_uTTL = s.m_Cache.m_uTTL := by
  induction steps generalizing s with
  | nil => rfl
  | cons st rest ih =>
    show (run lib (step lib s st) rest).m_Cache.m_uTTL = _
    rw [ih, step_m_uTTL]

/-- An entry for `k` inserted no earlier than `t` survives, possibly
refreshed, every step that happens no earlier than `t`. -/
theorem step_keeps_entry (lib : Lib) (s : State) (st : Step) (k : CString) (t : Nat)
    (hst : ∀ e a b, st = Step.login e a b → t ≤ e.now)
    (h : ∃ τ, (k, τ) ∈ s.m_Cache.m_mItems ∧ t ≤ τ) :
    ∃ τ, (k, τ) ∈ (step lib s st).m_Cache.m_mItems ∧ t ≤ τ := by
  obtain ⟨τ, hmem, hle⟩ := h
  rw [step_m_Cache]
  cases st with
  | host hp m n => exact ⟨τ, hmem, hle⟩
  | login env u p =>
    simp only
    split
    · by_cases hk : sCacheKey lib u p = k
      · exact ⟨env.now, (mem_AddItem _ _ _ _).mpr (Or.inl (by rw [hk])), hst env u p rfl⟩
      · exact ⟨τ, (mem_AddItem _ _ _ _).mpr (Or.inr ⟨hmem, fun e => hk e.symm⟩), hle⟩
    · exact ⟨τ, hmem, hle⟩

theorem run_keeps_entry (lib : Lib) (steps : List Step) (s : State) (k : CString) (t : Nat)
    (hst : ∀ e a b, Step.login e a b ∈ steps → t ≤ e.now)
    (h : ∃ τ, (k, τ) ∈ s.m_Cache.m_mItems ∧ t ≤ τ) :
    ∃ τ, (k, τ) ∈ (run lib s steps).m_Cache.m_mItems ∧ t ≤ τ := by
  induction steps generalizing s with
  | nil => exact h
  | cons st rest ih =>
    show ∃ τ, (k, τ) ∈ (run lib (step lib s st) rest).m_Cache.m_mItems ∧ t ≤ τ
    apply ih
    · intro e a b hmem
      exact hst e a b (List.mem_cons_of_mem _ hmem)
    · apply step_keeps_entry lib s st k t _ h
      intro e a b heq
      exact hst e a b (by rw [heq]; exact List.mem_cons_self _ _)

/-- Every cache entry of a run was there at the start or was inserted by a
backend-verified attempt of the run, at the time of that attempt. -/
theorem run_cache_origin (lib : Lib) (steps : List Step) (s : State) (k : CString) (τ : Nat)
    (h : (k, τ) ∈ (run lib s steps).m_Cache.m_mItems) :
    (k, τ) ∈ s.m_Cache.m_mItems
      ∨ ∃ u p, (u, p, τ) ∈ verifications lib s steps ∧ sCacheKey lib u p = k := by
  induction steps generalizing s with
  | nil => exact Or.inl h
  | cons st rest ih =>
    have h2 : (k, τ) ∈ (run lib (step lib s st) rest).m_Cache.m_mItems := h
    rcases ih (step lib s st) h2 with hin | ⟨u, p, hv, hk⟩
    · rw [step_m_Cache] at hin
      cases st with
      | host hp m n => exact Or.inl hin
      | login env u p =>
        simp only at hin
        by_cases hb : backendVerifies lib env s u p = true
        · rw [if_pos hb] at hin
          rcases (mem_AddItem _ _ _ _).mp hin with heq | ⟨hmem, _⟩
          · right
            refine ⟨u, p, ?_, ?_⟩
            · simp only [verifications, hb, if_true]
              have : τ = env.now := by cases heq; rfl
              rw [this]
              exact List.mem_append_left _ (List.mem_singleton_self _)
            · cases heq; rfl
          · exact Or.inl hmem
        · rw [if_neg hb] at hin
          exact Or.inl hin
    · right
      refine ⟨u, p, ?_, hk⟩
      cases st with
      | host hp m n => exact hv
      | login env u2 p2 =>
        simp only [verifications]
        exact List.mem_append_right _ hv

/-- The backend calls of an attempt whose credential the cache holds: none. -/
theorem backendCalls_of_hit (lib : Lib) (env : Env) (s : State) (u p : CString)
    (hhit : s.m_Cache.HasItem env.now (sCacheKey lib u p) = true) :
    backendCalls (OnLoginAttempt lib env s u p).2.trace = backendCalls s.trace := by
  obtain ⟨evsP, acc, hP, _, hacc, htr⟩ := OnLoginAttempt_trace lib env s u p
  rw [htr]
  simp only [backendCalls_append, (provisionEvents_counts evsP hP).1]
  have hchk : backendCalls (if passesGate lib s u = true
      then checkEvents lib env s u p else []) = 0 := by
    split
    · unfold checkEvents
      rw [if_pos hhit]
      rfl
    · rfl
  rw [hchk]
  rcases hacc with ⟨h1, _⟩ | ⟨q, h1, _, _⟩
  · rw [h1]; rfl
  · rw [h1]; rfl

/-- An attempt that passes the gate and misses the cache calls
`sasl_server_new`. -/
theorem backend_called_of_miss (lib : Lib) (env : Env) (s : State) (u p : CString)
    (hgate : passesGate lib s u = true)
    (hmiss : s.m_Cache.HasItem env.now (sCacheKey lib u p) = false) :
    Event.sasl_server_new ∈ newEvents s (OnLoginAttempt lib env s u p).2
      ∧ backendCalls s.trace < backendCalls (OnLoginAttempt lib env s u p).2.trace := by
  obtain ⟨evsP, acc, hP, _, hacc, htr⟩ := OnLoginAttempt_trace lib env s u p
  have hmem : Event.sasl_server_new ∈ checkEvents lib env s u p := by
    unfold checkEvents
    rw [hmiss]
    simp only [Bool.false_eq_true, if_false]
    split
    · split <;> simp
    · simp
  constructor
  · unfold newEvents
    rw [htr, List.drop_left, hgate, if_pos rfl]
    exact List.mem_append_left _ (List.mem_append_left _ hmem)
  · rw [htr, hgate, if_pos rfl]
    simp only [backendCalls_append]
    have : 0 < backendCalls (checkEvents lib env s u p) := by
      unfold backendCalls
      rw [List.countP_pos_iff]
      exact ⟨_, hmem, rfl⟩
    omega

/-- C1: once an attempt with the pair was verified by the backend at the time
of `env1` (gate passed, cache missed, `sasl_server_new` and `sasl_checkpass`
both `SASL_OK`), then after any later steps an attempt with the same pair less
than 60000 ms after `env1` that passes the gate finds the key in the cache: it
is treated as verified, its first two calls are the cache lookup and
`sasl_dispose`, the number of backend calls in the trace does not change, the
cache is left as it is, and the result is `HALT` exactly when an account is
available. -/
theorem C1_cache_hit (lib : Lib) (s : State) (env1 env2 : Env) (sUsername sPassword : CString)
    (mid : List Step)
    (hTTL : s.m_Cache.m_uTTL = 60000)
    (hBackend : backendVerifies lib env1 s sUsername sPassword = true)
    (hMid : ∀ e a b, Step.login e a b ∈ mid → env1.now ≤ e.now)
    (hWithin : env2.now - env1.now < 60000)
    (hGate : passesGate lib (run lib s (Step.login env1 sUsername sPassword :: mid)) sUsername
      = true) :
    verified lib env2 (run lib s (Step.login env1 sUsername sPassword :: mid))
        sUsername sPassword = true
    ∧ (checkCredentials lib env2 (run lib s (Step.login env1 sUsername sPassword :: mid))
        sUsername sPassword).1 = true
    ∧ (newEvents (run lib s (Step.login env1 sUsername sPassword :: mid))
        (OnLoginAttempt lib env2 (run lib s (Step.login env1 sUsername sPassword :: mid))
          sUsername sPassword).2).take 2
        = [Event.HasItem (sCacheKey lib sUsername sPassword), Event.sasl_dispose]
    ∧ backendCalls (OnLoginAttempt lib env2
          (run lib s (Step.login env1 sUsername sPassword :: mid)) sUsername sPassword).2.trace
        = backendCalls (run lib s (Step.login env1 sUsername sPassword :: mid)).trace
    ∧ (OnLoginAttempt lib env2 (run lib s (Step.login env1 sUsername sPassword :: mid))
        sUsername sPassword).2.m_Cache
        = (run lib s (Step.login env1 sUsername sPassword :: mid)).m_Cache
    ∧ ((OnLoginAttempt lib env2 (run lib s (Step.login env1 sUsername sPassword :: mid))
        sUsername sPassword).1 = EModRet.HALT
        ↔ accountAvailable lib env2 (run lib s (Step.login env1 sUsername sPassword :: mid))
            sUsername = true) := by
  have hrun : run lib s (Step.login env1 sUsername sPassword :: mid)
      = run lib (step lib s (Step.login env1 sUsername sPassword)) mid := rfl
  generalize hs2 : run lib s (Step.login env1 sUsername sPassword :: mid) = s2 at hGate ⊢
  have hentry1 : ∃ τ, (sCacheKey lib sUsername sPassword, τ)
      ∈ (step lib s (Step.login env1 sUsername sPassword)).m_Cache.m_mItems ∧ env1.now ≤ τ := by
    rw [step_m_Cache]
    simp only [hBackend, if_true]
    exact ⟨env1.now, (mem_AddItem _ _ _ _).mpr (Or.inl rfl), le_refl _⟩
  have hentry2 : ∃ τ, (sCacheKey lib sUsername sPassword, τ) ∈ s2.m_Cache.m_mItems
      ∧ env1.now ≤ τ := by
    rw [← hs2, hrun]
    exact run_keeps_entry lib mid _ _ _ hMid hentry1
  have httl : s2.m_Cache.m_uTTL = 60000 := by
    rw [← hs2, run_m_uTTL, hTTL]
  have hhit : s2.m_Cache.HasItem env2.now (sCacheKey lib sUsername sPassword) = true := by
    rw [HasItem_eq_true_iff]
    obtain ⟨τ, hmem, hle⟩ := hentry2
    exact ⟨τ, hmem, by rw [httl]; omega⟩
  have hver : verified lib env2 s2 sUsername sPassword = true := by
    simp [verified, hhit]
  refine ⟨hver, by rw [checkCredentials_fst]; exact hver, ?_, backendCalls_of_hit _ _ _ _ _ hhit,
    ?_, ?_⟩
  · obtain ⟨evsP, acc, _, _, _, hnew⟩ := OnLoginAttempt_newEvents lib env2 s2 sUsername sPassword
    rw [hnew, hGate, if_pos rfl]
    unfold checkEvents
    rw [if_pos hhit]
    rfl
  · rw [OnLoginAttempt_m_Cache]
    have : backendVerifies lib env2 s2 sUsername sPassword = false := by
      simp [backendVerifies, hhit]
    simp [this]
  · rw [OnLoginAttempt_fst, hver]
    cases accountAvailable lib env2 s2 sUsername <;> simp

/-- C1 at a concrete input: "alice" is verified at time 1000, "bob" logs in
at 30000, and "alice" comes back at 60999. -/
theorem C1_cache_hit_witness :
    backendVerifies demoLib (demoEnv 1000) ldapState "alice" "pw" = true
      ∧ (downEnv 60999).now - (demoEnv 1000).now < 60000
      ∧ backendCalls (OnLoginAttempt demoLib (downEnv 60999)
            (run demoLib ldapState
              [Step.login (demoEnv 1000) "alice" "pw", Step.login (demoEnv 30000) "bob" "pw2"])
            "alice" "pw").2.trace
          = backendCalls (run demoLib ldapState
              [Step.login (demoEnv 1000) "alice" "pw",
                Step.login (demoEnv 30000) "bob" "pw2"]).trace
      ∧ (OnLoginAttempt demoLib (downEnv 60999)
            (run demoLib ldapState
              [Step.login (demoEnv 1000) "alice" "pw", Step.login (demoEnv 30000) "bob" "pw2"])
            "alice" "pw").1 = EModRet.HALT :=
  have h := C1_cache_hit demoLib ldapState (demoEnv 1000) (downEnv 60999) "alice" "pw"
    [Step.login (demoEnv 30000) "bob" "pw2"] (by decide) (by decide)
    (by
      intro e a b hmem
      simp only [List.mem_singleton, Step.login.injEq] at hmem
      obtain ⟨he, _, _⟩ := hmem
      subst he
      decide)
    (by decide) (by decide)
  ⟨by decide, by decide, h.2.2.2.1, h.2.2.2.2.2.mpr (by decide)⟩

/-- C2, as stated for pairs, fails: in `collidingRun` the pair ("a:b", "c")
was last verified by the backend at time 0; its attempt at time 70001, more
than 60000 ms later, passes the gate and yet makes no backend call, because
the other pair's verification at 70000 stored the same key. The digest here
is the identity, so no digest collision is involved. -/
theorem C2_pair_counterexample :
    verifications demoLib ldapState collidingRun = [("a:b", "c", 0), ("a", "b:c", 70000)]
      ∧ 60000 ≤ 70001 - 0
      ∧ passesGate demoLib (run demoLib ldapState collidingRun) "a:b" = true
      ∧ Event.sasl_server_new ∉ newEvents (run demoLib ldapState collidingRun)
          (OnLoginAttempt demoLib (demoEnv 70001) (run demoLib ldapState collidingRun)
            "a:b" "c").2
      ∧ backendCalls (OnLoginAttempt demoLib (demoEnv 70001)
            (run demoLib ldapState collidingRun) "a:b" "c").2.trace
          = backendCalls (run demoLib ldapState collidingRun).trace := by
  decide

/-- C2, amended: the time to live is 60000 ms in every state a run of the
freshly constructed module reaches; an attempt that passes the gate calls
`sasl_server_new` again whenever every backend verification of the run that
stored its cache key lies at least 60000 ms back; and an attempt whose key the
cache holds leaves the cache exactly as it is, so a hit neither re-inserts
nor refreshes the entry. -/
theorem C2_cache_expiry (lib : Lib) (heap : List (Option CUser))
    (m_msUsers : List (CString × Nat)) (nv : List (CString × CString)) (pre : List Step)
    (env : Env) (sUsername sPassword : CString)
    (hGate : passesGate lib (run lib (MODCONSTRUCTOR heap m_msUsers nv) pre) sUsername = true)
    (hOld : ∀ u p τ, (u, p, τ) ∈ verifications lib (MODCONSTRUCTOR heap m_msUsers nv) pre →
      sCacheKey lib u p = sCacheKey lib sUsername sPassword → 60000 ≤ env.now - τ) :
    (run lib (MODCONSTRUCTOR heap m_msUsers nv) pre).m_Cache.m_uTTL = 60000
    ∧ Event.sasl_server_new ∈ newEvents (run lib (MODCONSTRUCTOR heap m_msUsers nv) pre)
        (OnLoginAttempt lib env (run lib (MODCONSTRUCTOR heap m_msUsers nv) pre)
          sUsername sPassword).2
    ∧ backendCalls (run lib (MODCONSTRUCTOR heap m_msUsers nv) pre).trace
        < backendCalls (OnLoginAttempt lib env (run lib (MODCONSTRUCTOR heap m_msUsers nv) pre)
            sUsername sPassword).2.trace
    ∧ (∀ (t : State) (e : Env) (u p : CString),
        t.m_Cache.HasItem e.now (sCacheKey lib u p) = true →
        (OnLoginAttempt lib e t u p).2.m_Cache = t.m_Cache) := by
  have httl : (run lib (MODCONSTRUCTOR heap m_msUsers nv) pre).m_Cache.m_uTTL = 60000 := by
    rw [run_m_uTTL]
    rfl
  have hmiss : (run lib (MODCONSTRUCTOR heap m_msUsers nv) pre).m_Cache.HasItem env.now
      (sCacheKey lib sUsername sPassword) = false := by
    cases hh : (run lib (MODCONSTRUCTOR heap m_msUsers nv) pre).m_Cache.HasItem env.now
        (sCacheKey lib sUsername sPassword) with
    | false => rfl
    | true =>
      exfalso
      obtain ⟨τ, hmem, hlt⟩ := (HasItem_eq_true_iff _ _ _).mp hh
      rw [httl] at hlt
      rcases run_cache_origin lib pre _ _ _ hmem with h0 | ⟨u, p, hv, hk⟩
      · exact absurd h0 (List.not_mem_nil _)
      · have := hOld u p τ hv hk
        omega
  obtain ⟨h1, h2⟩ := backend_called_of_miss lib env _ sUsername sPassword hGate hmiss
  refine ⟨httl, h1, h2, ?_⟩
  intro t e u p hhit
  rw [OnLoginAttempt_m_Cache]
  have : backendVerifies lib e t u p = false := by
    simp [backendVerifies, hhit]
  simp [this]

/-- C2 (amended) at a concrete input: "alice" is verified at time 1000 and
comes back at 61000. -/
theorem C2_cache_expiry_witness :
    verifications demoLib ldapState [Step.login (demoEnv 1000) "alice" "pw"]
        = [("alice", "pw", 1000)]
      ∧ 60000 ≤ (demoEnv 61000).now - 1000
      ∧ Event.sasl_server_new ∈ newEvents
          (run demoLib ldapState [Step.login (demoEnv 1000) "alice" "pw"])
          (OnLoginAttempt demoLib (demoEnv 61000)
            (run demoLib ldapState [Step.login (demoEnv 1000) "alice" "pw"]) "alice" "pw").2 :=
  have h := C2_cache_expiry demoLib [] [] [("CreateUser", "yes"), ("CreateFromLDAP", "yes")]
    [Step.login (demoEnv 1000) "alice" "pw"] (demoEnv 61000) "alice" "pw" (by decide)
    (by
      intro u p τ hmem _
      have hv : verifications demoLib
          (MODCONSTRUCTOR [] [] [("CreateUser", "yes"), ("CreateFromLDAP", "yes")])
          [Step.login (demoEnv 1000) "alice" "pw"] = [("alice", "pw", 1000)] := by decide
      rw [hv] at hmem
      simp only [List.mem_singleton, Prod.mk.injEq] at hmem
      obtain ⟨_, _, hτ⟩ := hmem
      subst hτ
      decide)
  ⟨by decide, by decide, h.2.1⟩

/-- A separator that occurs in neither left part splits a list in one way. -/
theorem split_unique (c : Char) (l1 l2 r1 r2 : List Char) (h1 : c ∉ l1) (h2 : c ∉ l2)
    (h : l1 ++ c :: r1 = l2 ++ c :: r2) : l1 = l2 ∧ r1 = r2 := by
  induction l1 generalizing l2 with
  | nil =>
    cases l2 with
    | nil => simpa using h
    | cons b l2 =>
      simp at h
      exact absurd h.1 (by intro e; apply h2; simp [e])
  | cons a l1 ih =>
    cases l2 with
    | nil =>
      simp at h
      exact absurd h.1.symm (by intro e; apply h1; simp [e])
    | cons b l2 =>
      simp at h
      obtain ⟨hab, ht⟩ := h
      have := ih l2 (by intro e; apply h1; simp [e]) (by intro e; apply h2; simp [e]) ht
      exact ⟨by rw [hab, this.1], this.2⟩

/-- Two pairs with colon-free usernames and the same `username:password`
string are the same pair. -/
theorem pair_of_concat (u1 p1 u2 p2 : CString) (h1 : ':' ∉ u1.data) (h2 : ':' ∉ u2.data)
    (h : u1 ++ ":" ++ p1 = u2 ++ ":" ++ p2) : u1 = u2 ∧ p1 = p2 := by
  have hd := congrArg String.data h
  simp only [String.data_append] at hd
  simp only [List.append_assoc, List.singleton_append] at hd
  obtain ⟨hu, hp⟩ := split_unique ':' _ _ _ _ h1 h2 hd
  exact ⟨String.ext hu, String.ext hp⟩

/-- C9, as stated for all strings, fails: with the identity as digest (no
collisions), "a" with password "b:c" is verified by the backend at time 0 and
is the only pair the backend ever verified; one millisecond later "a:b" with
password "c" finds the key in the cache and is treated as verified without a
backend call, although the two pairs differ. -/
theorem C9_pair_counterexample :
    Function.Injective demoLib.MD5
      ∧ verifications demoLib ldapState [Step.login (demoEnv 0) "a" "b:c"] = [("a", "b:c", 0)]
      ∧ (checkCredentials demoLib (downEnv 1)
          (run demoLib ldapState [Step.login (demoEnv 0) "a" "b:c"]) "a:b" "c").1 = true
      ∧ backendCalls (OnLoginAttempt demoLib (downEnv 1)
            (run demoLib ldapState [Step.login (demoEnv 0) "a" "b:c"]) "a:b" "c").2.trace
          = backendCalls (run demoLib ldapState [Step.login (demoEnv 0) "a" "b:c"]).trace
      ∧ (OnLoginAttempt demoLib (downEnv 1)
          (run demoLib ldapState [Step.login (demoEnv 0) "a" "b:c"]) "a:b" "c").1 = EModRet.HALT
      ∧ ¬ (("a" : CString) = "a:b" ∧ ("b:c" : CString) = "c") :=
  ⟨fun _ _ h => h, by decide, by decide, by decide, by decide, by decide⟩

/-- C9, amended: the cache key is the digest of `username ++ ":" ++ password`;
in a run of the freshly constructed module, whenever the cache holds the key
of a pair (u2, p2), the backend verified, less than 60000 ms earlier in that
run, a pair (u1, p1) with the same key; with a collision-free digest the two
strings `u1:p1` and `u2:p2` are equal, and the pairs themselves are equal when
neither username contains ':' (passwords may). -/
theorem C9_cache_key_pair (lib : Lib) (heap : List (Option CUser))
    (m_msUsers : List (CString × Nat)) (nv : List (CString × CString)) (pre : List Step)
    (env : Env) (u2 p2 : CString)
    (hHit : (run lib (MODCONSTRUCTOR heap m_msUsers nv) pre).m_Cache.HasItem env.now
      (sCacheKey lib u2 p2) = true) :
    sCacheKey lib u2 p2 = lib.MD5 (u2 ++ ":" ++ p2)
    ∧ ∃ u1 p1 τ, (u1, p1, τ) ∈ verifications lib (MODCONSTRUCTOR heap m_msUsers nv) pre
        ∧ env.now - τ < 60000
        ∧ lib.MD5 (u1 ++ ":" ++ p1) = lib.MD5 (u2 ++ ":" ++ p2)
        ∧ (Function.Injective lib.MD5 →
            u1 ++ ":" ++ p1 = u2 ++ ":" ++ p2
            ∧ (':' ∉ u1.data → ':' ∉ u2.data → u1 = u2 ∧ p1 = p2)) := by
  refine ⟨rfl, ?_⟩
  have httl : (run lib (MODCONSTRUCTOR heap m_msUsers nv) pre).m_Cache.m_uTTL = 60000 := by
    rw [run_m_uTTL]
    rfl
  obtain ⟨τ, hmem, hlt⟩ := (HasItem_eq_true_iff _ _ _).mp hHit
  rw [httl] at hlt
  rcases run_cache_origin lib pre _ _ _ hmem with h0 | ⟨u, p, hv, hk⟩
  · exact absurd h0 (List.not_mem_nil _)
  · refine ⟨u, p, τ, hv, hlt, hk, ?_⟩
    intro hinj
    have hcat : u ++ ":" ++ p = u2 ++ ":" ++ p2 := hinj hk
    exact ⟨hcat, fun h1 h2 => pair_of_concat u p u2 p2 h1 h2 hcat⟩

/-- C9 (amended) at a concrete input: "alice" is verified at time 0 and her
key is in the cache at time 10. -/
theorem C9_cache_key_pair_witness :
    (run demoLib ldapState [Step.login (demoEnv 0) "alice" "pw"]).m_Cache.HasItem
        (demoEnv 10).now (sCacheKey demoLib "alice" "pw") = true
      ∧ ∃ u1 p1 τ, (u1, p1, τ)
            ∈ verifications demoLib ldapState [Step.login (demoEnv 0) "alice" "pw"]
          ∧ (demoEnv 10).now - τ < 60000
          ∧ demoLib.MD5 (u1 ++ ":" ++ p1) = demoLib.MD5 ("alice" ++ ":" ++ "pw")
          ∧ (Function.Injective demoLib.MD5 →
              u1 ++ ":" ++ p1 = "alice" ++ ":" ++ "pw"
              ∧ (':' ∉ u1.data → ':' ∉ ("alice" : CString).data → u1 = "alice" ∧ p1 = "pw")) :=
  ⟨by decide,
    (C9_cache_key_pair demoLib [] [] [("CreateUser", "yes"), ("CreateFromLDAP", "yes")]
      [Step.login (demoEnv 0) "alice" "pw"] (demoEnv 10) "alice" "pw" (by decide)).2⟩

/-! ## `OnLoad` -/

theorem endsClean_append (x y : List Char) (h : endsClean y) : endsClean (x ++ y) := by
  obtain ⟨c, hc, hk⟩ := h
  obtain ⟨ys, rfl⟩ := List.getLast?_eq_some_iff.mp hc
  exact ⟨c, List.getLast?_eq_some_iff.mpr ⟨x ++ ys, by simp⟩, hk⟩

theorem rdropWhile_endsClean (x : List Char) (h : endsClean x) :
    x.rdropWhile isTrimChar = x := by
  obtain ⟨c, hc, hk⟩ := h
  obtain ⟨ys, rfl⟩ := List.getLast?_eq_some_iff.mp hc
  exact List.rdropWhile_concat_neg _ _ _ (by simp [hk])

theorem spaced_cons (a : CString) (rest : List CString) :
    spaced (a :: rest) = joined (a :: rest) ++ [' '] := by
  induction rest generalizing a with
  | nil => simp [spaced, joined]
  | cons b bs ih =>
    have h1 : spaced (a :: b :: bs) = a.data ++ [' '] ++ spaced (b :: bs) := by
      simp [spaced]
    have h2 : joined (a :: b :: bs) = a.data ++ [' '] ++ joined (b :: bs) := by
      simp [joined]
    rw [h1, h2, ih b]
    simp

theorem joined_endsClean (a : CString) (rest : List CString)
    (h : ∀ t ∈ a :: rest, endsClean t.data) : endsClean (joined (a :: rest)) := by
  induction rest generalizing a with
  | nil =>
    simpa [joined] using h a (List.mem_cons_self _ _)
  | cons b bs ih =>
    have h2 : joined (a :: b :: bs) = a.data ++ [' '] ++ joined (b :: bs) := by
      simp [joined]
    rw [h2]
    exact endsClean_append _ _ (ih b (fun t ht => h t (List.mem_cons_of_mem _ ht)))

theorem intercalate_go_data (sep : String) (l : List String) (acc : String) :
    (String.intercalate.go acc sep l).data
      = acc.data ++ (l.map (fun t => sep.data ++ t.data)).flatten := by
  induction l generalizing acc with
  | nil => simp [String.intercalate.go]
  | cons a rest ih =>
    simp [String.intercalate.go, ih, String.data_append, List.append_assoc]

theorem intercalate_data (l : List CString) :
    (String.intercalate " " l).data = joined l := by
  cases l with
  | nil => rfl
  | cons a rest =>
    show (String.intercalate.go a " " rest).data = _
    rw [intercalate_go_data]
    rfl

/-- Trimming what the loop leaves gives the accepted tokens joined by single
spaces, when no accepted token ends in white space. -/
theorem TrimRight_spaced (l : List CString) (m : CString) (hm : m.data = spaced l)
    (h : ∀ t ∈ l, endsClean t.data) : TrimRight m = String.intercalate " " l := by
  apply String.ext
  rw [intercalate_data]
  show m.data.rdropWhile isTrimChar = joined l
  rw [hm]
  cases l with
  | nil => rfl
  | cons a rest =>
    rw [spaced_cons, List.rdropWhile_concat_pos _ _ _ (by decide)]
    exact rdropWhile_endsClean _ (joined_endsClean a rest h)

/-- The loop of lines 75-82: what it appends to `m_sMethod`, what it prints,
and what it leaves in `sMessage`. -/
theorem OnLoadLoop_spec (lib : Lib) (vsArgs : List CString) (acc : State × CString) :
    (OnLoadLoop lib vsArgs acc).1.m_sMethod.data
        = acc.1.m_sMethod.data ++ spaced (vsArgs.filter (isMethod lib))
    ∧ (OnLoadLoop lib vsArgs acc).1.trace = acc.1.trace ++ rejectedErrors lib vsArgs
    ∧ (OnLoadLoop lib vsArgs acc).2
        = (if vsArgs.all (isMethod lib) then acc.2 else "Ignored invalid SASL pwcheck method") := by
  induction vsArgs generalizing acc with
  | nil => simp [OnLoadLoop, spaced, rejectedErrors]
  | cons it rest ih =>
    cases hit : isMethod lib it with
    | true =>
      have hstep : OnLoadLoop lib (it :: rest) acc
          = OnLoadLoop lib rest
              ({ acc.1 with m_sMethod := acc.1.m_sMethod ++ (it ++ " ") }, acc.2) := by
        simp [OnLoadLoop, hit]
      rw [hstep]
      obtain ⟨h1, h2, h3⟩ := ih ({ acc.1 with m_sMethod := acc.1.m_sMethod ++ (it ++ " ") }, acc.2)
      refine ⟨?_, ?_, ?_⟩
      · rw [h1]
        simp [spaced, hit, String.data_append]
      · rw [h2]
        simp [rejectedErrors, hit]
      · rw [h3]
        simp [hit]
    | false =>
      have hstep : OnLoadLoop lib (it :: rest) acc
          = OnLoadLoop lib rest
              (acc.1.emit (Event.PrintError ("Ignoring invalid SASL pwcheck method: " ++ it)),
                "Ignored invalid SASL pwcheck method") := by
        simp [OnLoadLoop, hit]
      rw [hstep]
      obtain ⟨h1, h2, h3⟩ := ih
        (acc.1.emit (Event.PrintError ("Ignoring invalid SASL pwcheck method: " ++ it)),
          "Ignored invalid SASL pwcheck method")
      refine ⟨?_, ?_, ?_⟩
      · rw [h1]
        simp [hit, State.emit]
      · rw [h2]
        simp [rejectedErrors, hit]
      · rw [h3]
        simp [hit]

/-- C6: for every argument string, with `Equals` accepting no token that ends
in white space, `m_sMethod` after `OnLoad` on a freshly constructed module is
the tokens accepted as "saslauthd" or "auxprop", in input order, joined by
single spaces with nothing after the last; every rejected token is reported
through `PrintError`; with at least one accepted and one rejected token and
`sasl_server_init` returning `SASL_OK`, `OnLoad` returns true with `sMessage`
the warning "Ignored invalid SASL pwcheck method"; with no accepted token it
returns false with the message that a method is needed and never calls
`sasl_server_init`. -/
theorem C6_OnLoad_methods (lib : Lib) (sasl_server_init : Int) (heap : List (Option CUser))
    (m_msUsers : List (CString × Nat)) (nv : List (CString × CString))
    (sArgs sMessage : CString)
    (hEquals : ∀ t, isMethod lib t = true →
      ∃ c, t.data.getLast? = some c ∧ isTrimChar c = false) :
    (OnLoad lib sasl_server_init (MODCONSTRUCTOR heap m_msUsers nv) sArgs sMessage).2.2.m_sMethod
        = String.intercalate " " ((Split sArgs).filter (isMethod lib))
    ∧ (∀ t ∈ Split sArgs, isMethod lib t = false →
        Event.PrintError ("Ignoring invalid SASL pwcheck method: " ++ t)
          ∈ (OnLoad lib sasl_server_init (MODCONSTRUCTOR heap m_msUsers nv)
              sArgs sMessage).2.2.trace)
    ∧ ((∃ t ∈ Split sArgs, isMethod lib t = true) → (∃ t ∈ Split sArgs, isMethod lib t = false) →
        sasl_server_init = SASL_OK →
        (OnLoad lib sasl_server_init (MODCONSTRUCTOR heap m_msUsers nv) sArgs sMessage).1 = true
        ∧ (OnLoad lib sasl_server_init (MODCONSTRUCTOR heap m_msUsers nv) sArgs sMessage).2.1
            = "Ignored invalid SASL pwcheck method")
    ∧ ((∀ t ∈ Split sArgs, isMethod lib t = false) →
        (OnLoad lib sasl_server_init (MODCONSTRUCTOR heap m_msUsers nv) sArgs sMessage).1 = false
        ∧ (OnLoad lib sasl_server_init (MODCONSTRUCTOR heap m_msUsers nv) sArgs sMessage).2.1
            = "Need a pwcheck method as argument (saslauthd, auxprop)"
        ∧ Event.sasl_server_init ∉
            (OnLoad lib sasl_server_init (MODCONSTRUCTOR heap m_msUsers nv)
              sArgs sMessage).2.2.trace) := by
  obtain ⟨h1, h2, h3⟩ := OnLoadLoop_spec lib (Split sArgs)
    (MODCONSTRUCTOR heap m_msUsers nv, sMessage)
  have hm0 : (MODCONSTRUCTOR heap m_msUsers nv).m_sMethod.data = [] := rfl
  have ht0 : (MODCONSTRUCTOR heap m_msUsers nv).trace = [] := rfl
  simp only [hm0, List.nil_append] at h1
  simp only [ht0, List.nil_append] at h2
  have hclean : ∀ t ∈ (Split sArgs).filter (isMethod lib), endsClean t.data := by
    intro t ht
    exact hEquals t (List.mem_filter.mp ht).2
  have htrim := TrimRight_spaced ((Split sArgs).filter (isMethod lib)) _ h1 hclean
  have hmethod : (OnLoad lib sasl_server_init (MODCONSTRUCTOR heap m_msUsers nv)
      sArgs sMessage).2.2.m_sMethod
        = TrimRight (OnLoadLoop lib (Split sArgs)
            (MODCONSTRUCTOR heap m_msUsers nv, sMessage)).1.m_sMethod := by
    unfold OnLoad
    simp only
    split
    · rfl
    · split <;> rfl
  refine ⟨by rw [hmethod, htrim], ?_, ?_, ?_⟩
  · intro t ht hrej
    have hmem : Event.PrintError ("Ignoring invalid SASL pwcheck method: " ++ t)
        ∈ rejectedErrors lib (Split sArgs) := by
      unfold rejectedErrors
      exact List.mem_map.mpr ⟨t, List.mem_filter.mpr ⟨ht, by simp [hrej]⟩, rfl⟩
    have htrace : ∀ e ∈ rejectedErrors lib (Split sArgs),
        e ∈ (OnLoad lib sasl_server_init (MODCONSTRUCTOR heap m_msUsers nv)
          sArgs sMessage).2.2.trace := by
      intro e he
      unfold OnLoad
      simp only
      split
      · simpa [h2] using he
      · split <;> simp [h2, he]
    exact htrace _ hmem
  · rintro ⟨t, ht, hacc⟩ ⟨r, hr, hrej⟩ hinit
    have hne : ¬ (TrimRight (OnLoadLoop lib (Split sArgs)
        (MODCONSTRUCTOR heap m_msUsers nv, sMessage)).1.m_sMethod).isEmpty = true := by
      rw [htrim, String.isEmpty_iff]
      intro hempty
      have hd := congrArg String.data hempty
      rw [intercalate_data] at hd
      have hmem : t ∈ (Split sArgs).filter (isMethod lib) := List.mem_filter.mpr ⟨ht, hacc⟩
      cases hl : (Split sArgs).filter (isMethod lib) with
      | nil => rw [hl] at hmem; cases hmem
      | cons a rest =>
        rw [hl] at hd hclean
        obtain ⟨c, hc, _⟩ := joined_endsClean a rest hclean
        rw [hd] at hc
        cases hc
    have hall : (Split sArgs).all (isMethod lib) = false := by
      rw [Bool.eq_false_iff]
      intro hcon
      rw [List.all_eq_true] at hcon
      rw [hcon r hr] at hrej
      cases hrej
    unfold OnLoad
    simp only
    rw [if_neg hne, if_neg (by simp [hinit])]
    exact ⟨rfl, by rw [h3, hall]; rfl⟩
  · intro hnone
    have hnil : (Split sArgs).filter (isMethod lib) = [] := by
      rw [List.filter_eq_nil_iff]
      intro t ht
      simp [hnone t ht]
    have hempty : (TrimRight (OnLoadLoop lib (Split sArgs)
        (MODCONSTRUCTOR heap m_msUsers nv, sMessage)).1.m_sMethod).isEmpty = true := by
      rw [htrim, hnil]
      rfl
    unfold OnLoad
    simp only
    rw [if_pos hempty]
    refine ⟨rfl, rfl, ?_⟩
    simp only [h2]
    unfold rejectedErrors
    simp

/-- C6 at a concrete input: one accepted and one rejected token. -/
theorem C6_OnLoad_methods_witness :
    (OnLoad demoLib SASL_OK (MODCONSTRUCTOR [] [] []) "saslauthd  bogus" "").2.2.m_sMethod
        = "saslauthd"
      ∧ (OnLoad demoLib SASL_OK (MODCONSTRUCTOR [] [] []) "saslauthd  bogus" "").1 = true
      ∧ (OnLoad demoLib SASL_OK (MODCONSTRUCTOR [] [] []) "saslauthd  bogus" "").2.1
          = "Ignored invalid SASL pwcheck method" :=
  have hEq : ∀ t, isMethod demoLib t = true →
      ∃ c, t.data.getLast? = some c ∧ isTrimChar c = false := by
    intro t ht
    simp only [isMethod, demoLib, Bool.or_eq_true, beq_iff_eq] at ht
    rcases ht with h | h
    · subst h; exact Exists.intro 'd' (And.intro (by decide) (by decide))
    · subst h; exact Exists.intro 'p' (And.intro (by decide) (by decide))
  have h := C6_OnLoad_methods demoLib SASL_OK [] [] [] "saslauthd  bogus" "" hEq
  ⟨h.1, h.2.2.1 ⟨"saslauthd", by decide, by decide⟩ ⟨"bogus", by decide, by decide⟩ rfl⟩

end CyrusAuthLDAP
